import Mathlib

/-!
Verification of the Mass Assignment Radar scan engine
(`packages/backend/src/index.ts`) against its specification.

The TypeScript backend is shallowly embedded in Lean:

* JavaScript strings are Lean `String`s; the JS string operations used by the
  source (`trim`, `split`, `includes`, `toLowerCase`, `slice`, …) are
  re-implemented below over `List Char` so that all definitions reduce in the
  kernel.
* JSON numbers are modelled as `Int`.  None of the verified claims depends on
  non-integer numerics; where the source inspects a decimal literal the model
  truncates the fractional part, and `Number.isFinite` is total on model
  integers.
* The JavaScript value `undefined` is modelled as `Option.none`; parsed JSON
  trees never contain it, matching the runtime behaviour of `JSON.parse`.
* Host I/O (`sdk.requests.get` / `send`, the findings sink) is modelled by an
  explicit environment record consulted by the scan state machine; each send
  is recorded as an event so that "no request is sent" is expressible.
-/
/-! ## JavaScript string helpers -/
/-- The whitespace class used by JS `trim`/`\s` (ASCII part). -/
def jsWhitespace (c : Char) : Bool :=
  c = ' ' || c = '\t' || c = '\n' || c = '\r' || c = '\x0b' || c = '\x0c'

def jsTrimStartList (cs : List Char) : List Char :=
  cs.dropWhile jsWhitespace

def jsTrimList (cs : List Char) : List Char :=
  ((cs.dropWhile jsWhitespace).reverse.dropWhile jsWhitespace).reverse

/-- JS `String.prototype.trim`. -/
def jsTrim (s : String) : String := ⟨jsTrimList s.toList⟩

/-- JS `String.prototype.trimStart`. -/
def jsTrimStart (s : String) : String := ⟨jsTrimStartList s.toList⟩

/-- JS `String.prototype.trimEnd`. -/
def jsTrimEnd (s : String) : String := ⟨(s.toList.reverse.dropWhile jsWhitespace).reverse⟩

/-- JS `String.prototype.split` with a single-character separator. -/
def splitCharList (sep : Char) : List Char → List (List Char)
  | [] => [[]]
  | c :: rest =>
    let r := splitCharList sep rest
    if c = sep then [] :: r
    else
      match r with
      | [] => [[c]]
      | g :: gs => (c :: g) :: gs

def jsSplit (sep : Char) (s : String) : List String :=
  (splitCharList sep s.toList).map (fun cs => ⟨cs⟩)

/-- JS `String.prototype.includes` with a single-character needle. -/
def strHasChar (s : String) (c : Char) : Bool := s.toList.contains c

def listIsPre : List Char → List Char → Bool
  | [], _ => true
  | _ :: _, [] => false
  | a :: as, b :: bs => a = b && listIsPre as bs

def listHasInfix (pat : List Char) : List Char → Bool
  | [] => listIsPre pat []
  | c :: rest => listIsPre pat (c :: rest) || listHasInfix pat rest

/-- JS `String.prototype.includes`. -/
def strIncludes (s pat : String) : Bool := listHasInfix pat.toList s.toList

/-- JS `String.prototype.startsWith`. -/
def strStarts (s pat : String) : Bool := listIsPre pat.toList s.toList

/-- JS `String.prototype.endsWith`. -/
def strEnds (s pat : String) : Bool := listIsPre pat.toList.reverse s.toList.reverse

/-- JS `String.prototype.indexOf`, returning `none` for `-1`. -/
def firstInfixIdx (pat : List Char) : List Char → Option Nat
  | [] => if listIsPre pat [] then some 0 else none
  | c :: rest =>
    if listIsPre pat (c :: rest) then some 0
    else
      match firstInfixIdx pat rest with
      | some i => some (i + 1)
      | none => none

def firstIdxOfChar (c : Char) (cs : List Char) : Option Nat :=
  firstInfixIdx [c] cs

/-- JS `String.prototype.slice(0, n)` (character-level model). -/
def strTake (s : String) (n : Nat) : String := ⟨s.toList.take n⟩

/-- JS `String.prototype.slice(n)` (character-level model). -/
def strDrop (s : String) (n : Nat) : String := ⟨s.toList.drop n⟩

def jsToLowerChar (c : Char) : Char :=
  if 'A' ≤ c && c ≤ 'Z' then Char.ofNat (c.toNat + 32) else c

/-- JS `String.prototype.toLowerCase` (ASCII model). -/
def jsToLower (s : String) : String := ⟨s.toList.map jsToLowerChar⟩

/-- JS `String.prototype.split(/\s+/)`: tokens between whitespace runs, with an
empty leading (resp. trailing) group when the string starts (resp. ends) with
whitespace. -/
def splitWsList : List Char → List (List Char)
  | [] => [[]]
  | c :: rest =>
    let r := splitWsList rest
    if jsWhitespace c then
      match rest with
      | r0 :: _ => if jsWhitespace r0 then r else [] :: r
      | [] => [] :: r
    else
      match r with
      | g :: gs => (c :: g) :: gs
      | [] => [[c]]

def jsSplitWs (s : String) : List String :=
  (splitWsList s.toList).map (fun cs => ⟨cs⟩)

def jsDigit (c : Char) : Bool := '0' ≤ c && c ≤ '9'

def digitsToNat (cs : List Char) : Nat :=
  cs.foldl (fun acc c => acc * 10 + (c.toNat - 48)) 0

/-- The regular expression `/^-?\d+(\.\d+)?$/` of the custom-value parser. -/
def matchesNumberLit (cs : List Char) : Bool :=
  let body := match cs with
    | '-' :: t => t
    | t => t
  let ds := body.takeWhile jsDigit
  let rest := body.dropWhile jsDigit
  !ds.isEmpty &&
    (rest.isEmpty ||
      (match rest with
       | '.' :: fs => !fs.isEmpty && fs.all jsDigit
       | _ => false))

/-- The `Number(...)` on a literal matching `matchesNumberLit`; the fractional part
is truncated in the integer model. -/
def jsNumOfLit (cs : List Char) : Int :=
  match cs with
  | '-' :: t => -(digitsToNat (t.takeWhile jsDigit) : Int)
  | t => (digitsToNat (t.takeWhile jsDigit) : Int)

/-- The regular expression `/^[0-9]+$/`. -/
def matchesDigits (cs : List Char) : Bool :=
  !cs.isEmpty && cs.all jsDigit

def joinSep (sep : String) : List String → String
  | [] => ""
  | [x] => x
  | x :: rest => x ++ sep ++ joinSep sep rest

/-! ## JSON values

`JSONValue` models the runtime JSON trees of the plugin.  `null` is the JS
`null`; the JS `undefined` that appears in the TypeScript `JSONValue` union is
modelled as `Option.none` at every place the source can observe it. -/
inductive JSONValue where
  | str (s : String)
  | num (n : Int)
  | bool (b : Bool)
  | null
  | obj (fields : List (String × JSONValue))
  | arr (items : List JSONValue)

mutual
/-- Number of nodes of a JSON tree (used as explicit fuel for the
stack-based DFS loops of the source). -/
def jsize : JSONValue → Nat
  | .obj fs => 1 + jsizeFields fs
  | .arr xs => 1 + jsizeItems xs
  | _ => 1
def jsizeFields : List (String × JSONValue) → Nat
  | [] => 0
  | (_, v) :: rest => jsize v + jsizeFields rest
def jsizeItems : List JSONValue → Nat
  | [] => 0
  | v :: rest => jsize v + jsizeItems rest
end

/-- The `isRecord` of the source: a non-null, non-array object. -/
def isRecord : JSONValue → Bool
  | .obj _ => true
  | _ => false

/-- The `typeof v` is `string`/`number`/`boolean`, or `v === null` — the primitive
test repeated throughout the source. -/
def isPrimitive : JSONValue → Bool
  | .str _ => true
  | .num _ => true
  | .bool _ => true
  | .null => true
  | _ => false

/-- JS property read `o[key]` on an object (objects have unique keys, so
first-match lookup is exact). -/
def objLookup : List (String × JSONValue) → String → Option JSONValue
  | [], _ => none
  | (k, v) :: rest, key => if k = key then some v else objLookup rest key

/-- JS `key in o`. -/
def objHasKey (fs : List (String × JSONValue)) (key : String) : Bool :=
  (objLookup fs key).isSome

/-- JS property write `o[key] = value`: overwrite in place, keeping the key
order, or append a fresh key. -/
def listAssign {α : Type} : List (String × α) → String × α → List (String × α)
  | [], kv => [kv]
  | (k, v) :: rest, (key, value) =>
    if k = key then (k, value) :: rest else (k, v) :: listAssign rest (key, value)

/-- The `Object.assign(base, extra)`. -/
def jsAssignAll {α : Type} (base extra : List (String × α)) : List (String × α) :=
  extra.foldl listAssign base

def listLookup {α : Type} : List (String × α) → String → Option α
  | [], _ => none
  | (k, v) :: rest, key => if k = key then some v else listLookup rest key

/-- The `Object.values(o)`. -/
def objValues (fs : List (String × JSONValue)) : List JSONValue :=
  fs.map (fun p => p.2)

/-! ## Stringification (`safeStringify`, `JSON.stringify`) -/
def hexDigitChar (n : Nat) : Char :=
  if n < 10 then Char.ofNat (48 + n) else Char.ofNat (87 + n)

def escapeJsonList : List Char → List Char
  | [] => []
  | c :: rest =>
    (if c = '"' then ['\\', '"']
     else if c = '\\' then ['\\', '\\']
     else if c = '\x08' then ['\\', 'b']
     else if c = '\t' then ['\\', 't']
     else if c = '\n' then ['\\', 'n']
     else if c = '\x0c' then ['\\', 'f']
     else if c = '\r' then ['\\', 'r']
     else if c.toNat < 32 then
       ['\\', 'u', '0', '0', hexDigitChar (c.toNat / 16), hexDigitChar (c.toNat % 16)]
     else [c]) ++ escapeJsonList rest

/-- A JSON string literal as produced by `JSON.stringify`. -/
def quoteJson (s : String) : String :=
  "\"" ++ String.mk (escapeJsonList s.toList) ++ "\""

mutual
/-- The `JSON.stringify` (compact form, insertion key order). -/
def stringifyJson : JSONValue → String
  | .str s => quoteJson s
  | .num n => toString n
  | .bool b => if b then "true" else "false"
  | .null => "null"
  | .obj fs => "\x7b" ++ stringifyFields fs ++ "\x7d"
  | .arr xs => "[" ++ stringifyItems xs ++ "]"
def stringifyFields : List (String × JSONValue) → String
  | [] => ""
  | [(k, v)] => quoteJson k ++ ":" ++ stringifyJson v
  | (k, v) :: rest => quoteJson k ++ ":" ++ stringifyJson v ++ "," ++ stringifyFields rest
def stringifyItems : List JSONValue → String
  | [] => ""
  | [v] => stringifyJson v
  | v :: rest => stringifyJson v ++ "," ++ stringifyItems rest
end

/-- The `safeStringify` of the source.  The argument type `JSONValue | undefined`
is modelled as `Option JSONValue` with `none` for `undefined`. -/
def safeStringify : Option JSONValue → String
  | none => "undefined"
  | some (.str s) => s
  | some (.num n) => toString n
  | some (.bool b) => if b then "true" else "false"
  | some .null => "null"
  | some v => stringifyJson v

/-- JS `String(v)` on a primitive (only applied under `isPrimitive` guards in
the source). -/
def jsStringOfPrim : JSONValue → String
  | .str s => s
  | .num n => toString n
  | .bool b => if b then "true" else "false"
  | .null => "null"
  | v => stringifyJson v

/-! ## The `Result` envelope and `JSON.parse` -/
/-- The `Result<T>` envelope of the source. -/
inductive Result (α : Type) where
  | error (error : String)
  | ok (value : α)

def jsonWs (c : Char) : Bool :=
  c = ' ' || c = '\t' || c = '\n' || c = '\r'

def skipWs : List Char → List Char
  | [] => []
  | c :: rest => if jsonWs c then skipWs rest else c :: rest

def parseHexDigit (c : Char) : Option Nat :=
  if '0' ≤ c && c ≤ '9' then some (c.toNat - 48)
  else if 'a' ≤ c && c ≤ 'f' then some (c.toNat - 87)
  else if 'A' ≤ c && c ≤ 'F' then some (c.toNat - 55)
  else none

/-- Body of a JSON string literal (after the opening quote): returns the
decoded characters and the input after the closing quote. -/
def parseJStr : Nat → List Char → Option (List Char × List Char)
  | 0, _ => none
  | fuel + 1, cs =>
    match cs with
    | [] => none
    | '"' :: rest => some ([], rest)
    | '\\' :: esc :: rest =>
      if esc = 'u' then
        match rest with
        | h1 :: h2 :: h3 :: h4 :: rest2 =>
          match parseHexDigit h1, parseHexDigit h2, parseHexDigit h3, parseHexDigit h4 with
          | some a, some b, some c, some d =>
            let n := ((a * 16 + b) * 16 + c) * 16 + d
            (parseJStr fuel rest2).map (fun p => (Char.ofNat n :: p.1, p.2))
          | _, _, _, _ => none
        | _ => none
      else
        let decoded : Option Char :=
          if esc = '"' then some '"'
          else if esc = '\\' then some '\\'
          else if esc = '/' then some '/'
          else if esc = 'b' then some '\x08'
          else if esc = 'f' then some '\x0c'
          else if esc = 'n' then some '\n'
          else if esc = 'r' then some '\r'
          else if esc = 't' then some '\t'
          else none
        match decoded with
        | some d => (parseJStr fuel rest).map (fun p => (d :: p.1, p.2))
        | none => none
    | c :: rest => (parseJStr fuel rest).map (fun p => (c :: p.1, p.2))

/-- A JSON number literal: `-? digits frac? exp?`, evaluated in the integer
model (the fractional part is truncated). -/
def parseJNum (cs : List Char) : Option (Int × List Char) :=
  let (neg, body) := match cs with
    | '-' :: t => (true, t)
    | t => (false, t)
  let ds := body.takeWhile jsDigit
  let rest := body.dropWhile jsDigit
  if ds.isEmpty then none
  else
    let (fs, rest2) := match rest with
      | '.' :: t => (t.takeWhile jsDigit, t.dropWhile jsDigit)
      | t => (([] : List Char), t)
    let (expVal, rest3) : Int × List Char := match rest2 with
      | 'e' :: '+' :: t => ((digitsToNat (t.takeWhile jsDigit) : Int), t.dropWhile jsDigit)
      | 'e' :: '-' :: t => (-(digitsToNat (t.takeWhile jsDigit) : Int), t.dropWhile jsDigit)
      | 'e' :: t => ((digitsToNat (t.takeWhile jsDigit) : Int), t.dropWhile jsDigit)
      | 'E' :: '+' :: t => ((digitsToNat (t.takeWhile jsDigit) : Int), t.dropWhile jsDigit)
      | 'E' :: '-' :: t => (-(digitsToNat (t.takeWhile jsDigit) : Int), t.dropWhile jsDigit)
      | 'E' :: t => ((digitsToNat (t.takeWhile jsDigit) : Int), t.dropWhile jsDigit)
      | t => (0, t)
    let mantissa : Nat := digitsToNat (ds ++ fs)
    let scale : Int := expVal - (fs.length : Int)
    let magnitude : Int :=
      if 0 ≤ scale then (mantissa : Int) * ((10 : Int) ^ scale.toNat)
      else ((mantissa : Int) / ((10 : Int) ^ (-scale).toNat))
    some (if neg then -magnitude else magnitude, rest3)

mutual
/-- Strict JSON value parser (`JSON.parse`), fuel-recursive. -/
def parseJVal : Nat → List Char → Option (JSONValue × List Char)
  | 0, _ => none
  | fuel + 1, cs =>
    match skipWs cs with
    | [] => none
    | c :: rest =>
      if c = '"' then
        (parseJStr (rest.length + 1) rest).map (fun p => (JSONValue.str ⟨p.1⟩, p.2))
      else if c = '\x7b' then
        match skipWs rest with
        | '\x7d' :: rest2 => some (.obj [], rest2)
        | _ => (parseJMembers fuel rest []).map (fun p => (JSONValue.obj p.1, p.2))
      else if c = '[' then
        match skipWs rest with
        | ']' :: rest2 => some (.arr [], rest2)
        | _ => (parseJItems fuel rest []).map (fun p => (JSONValue.arr p.1, p.2))
      else if c = 't' then
        match rest with
        | 'r' :: 'u' :: 'e' :: rest2 => some (.bool true, rest2)
        | _ => none
      else if c = 'f' then
        match rest with
        | 'a' :: 'l' :: 's' :: 'e' :: rest2 => some (.bool false, rest2)
        | _ => none
      else if c = 'n' then
        match rest with
        | 'u' :: 'l' :: 'l' :: rest2 => some (.null, rest2)
        | _ => none
      else
        (parseJNum (c :: rest)).map (fun p => (JSONValue.num p.1, p.2))

/-- Object members; duplicate keys overwrite in place as JS object literals
do. -/
def parseJMembers : Nat → List Char → List (String × JSONValue) →
    Option (List (String × JSONValue) × List Char)
  | 0, _, _ => none
  | fuel + 1, cs, acc =>
    match skipWs cs with
    | '"' :: rest =>
      match parseJStr (rest.length + 1) rest with
      | some (key, rest2) =>
        match skipWs rest2 with
        | ':' :: rest3 =>
          match parseJVal fuel rest3 with
          | some (v, rest4) =>
            let acc2 := listAssign acc (⟨key⟩, v)
            match skipWs rest4 with
            | ',' :: rest5 => parseJMembers fuel rest5 acc2
            | '\x7d' :: rest5 => some (acc2, rest5)
            | _ => none
          | none => none
        | _ => none
      | none => none
    | _ => none

def parseJItems : Nat → List Char → List JSONValue →
    Option (List JSONValue × List Char)
  | 0, _, _ => none
  | fuel + 1, cs, acc =>
    match parseJVal fuel cs with
    | some (v, rest) =>
      let acc2 := acc ++ [v]
      match skipWs rest with
      | ',' :: rest2 => parseJItems fuel rest2 acc2
      | ']' :: rest2 => some (acc2, rest2)
      | _ => none
    | none => none
end

/-- The `parseJsonValue` of the source: strict `JSON.parse` wrapped in the
`Result` envelope with the fixed error string. -/
def parseJsonValue (text : String) : Result JSONValue :=
  let cs := text.toList
  match parseJVal (2 * cs.length + 2) cs with
  | some (v, rest) =>
    if (skipWs rest).isEmpty then .ok v else .error "body is not valid JSON"
  | none => .error "body is not valid JSON"

/-! ## JSON body model (`containsKeyDeep`, `getPrimitiveDeep`,
`getAllPrimitives`, `setDeep`) -/
/-- The explicit-stack DFS loop of `containsKeyDeep`.  The JS array used as a
stack has its top at the end; here the Lean list head is the top, so a JS
`for … push` of a list pushes its reverse.  The fuel only guards recursion:
each loop iteration removes one node from the stack and pushes strictly
smaller children, so `jsize value + 1` iterations always suffice. -/
def ckdGo : Nat → List JSONValue → String → Bool
  | 0, _, _ => false
  | _ + 1, [], _ => false
  | fuel + 1, current :: rest, key =>
    match current with
    | .arr items => ckdGo fuel (items.reverse ++ rest) key
    | .obj fs =>
      if objHasKey fs key then true
      else ckdGo fuel ((objValues fs).reverse ++ rest) key
    | _ => ckdGo fuel rest key

/-- The `containsKeyDeep` of the source. -/
def containsKeyDeep (value : JSONValue) (key : String) : Bool :=
  ckdGo (jsize value + 1) [value] key

/-- The dotted-path traversal of `getPrimitiveDeep`: step into object children
part by part; a missing part or a non-object intermediate yields `undefined`. -/
def pathLookup : JSONValue → List String → Option JSONValue
  | current, [] => some current
  | current, part :: rest =>
    match current with
    | .obj fs =>
      match objLookup fs part with
      | some v => pathLookup v rest
      | none => none
    | _ => none

/-- The DFS branch of `getPrimitiveDeep` (key without a dot): first object
node carrying `key` with a primitive value, in stack order. -/
def gpdGo : Nat → List JSONValue → String → Option JSONValue
  | 0, _, _ => none
  | _ + 1, [], _ => none
  | fuel + 1, current :: rest, key =>
    match current with
    | .arr items => gpdGo fuel (items.reverse ++ rest) key
    | .obj fs =>
      match objLookup fs key with
      | some v =>
        if isPrimitive v then some v
        else gpdGo fuel ((objValues fs).reverse ++ rest) key
      | none => gpdGo fuel ((objValues fs).reverse ++ rest) key
    | _ => gpdGo fuel rest key

/-- The `getPrimitiveDeep` of the source. -/
def getPrimitiveDeep (value : JSONValue) (key : String) : Option JSONValue :=
  if strHasChar key '.' then
    match pathLookup value (jsSplit '.' key) with
    | some current => if isPrimitive current then some current else none
    | none => none
  else
    gpdGo (jsize value + 1) [value] key

mutual
/-- The `getAllPrimitives` of the source: flatten every primitive reachable
through objects into a `path ↦ String(value)` record.  A primitive that is a
direct array element falls through both branches of the source function and
is dropped, exactly as in the source. -/
def getAllPrimitives (value : JSONValue) (pre : String) : List (String × String) :=
  match value with
  | .arr items => gapItems items pre 0 []
  | .obj fs => gapFields fs pre []
  | _ => []

/-- Array branch: `Object.assign(result, getAllPrimitives(value[i], prefix ++ "[i]"))`
accumulated left to right. -/
def gapItems : List JSONValue → String → Nat → List (String × String) →
    List (String × String)
  | [], _, _, acc => acc
  | v :: rest, pre, i, acc =>
    gapItems rest pre (i + 1)
      (jsAssignAll acc (getAllPrimitives v (pre ++ "[" ++ toString i ++ "]")))

/-- Object branch: primitive entries are written at `prefix.key`; the rest are
flattened recursively and assigned in. -/
def gapFields : List (String × JSONValue) → String → List (String × String) →
    List (String × String)
  | [], _, acc => acc
  | (key, v) :: rest, pre, acc =>
    let path := if pre = "" then key else pre ++ "." ++ key
    let acc2 :=
      if isPrimitive v then listAssign acc (path, jsStringOfPrim v)
      else jsAssignAll acc (getAllPrimitives v path)
    gapFields rest pre acc2
end

/-- The `setDeep` of the source, in functional form: walk the split path, cloning
the object spine; a missing or non-object intermediate is replaced by a fresh
empty object, and the final part is assigned the value. -/
def setDeepGo (fields : List (String × JSONValue)) (value : JSONValue) :
    List String → List (String × JSONValue)
  | [] => fields
  | [last] => listAssign fields (last, value)
  | part :: rest =>
    let child := match objLookup fields part with
      | some (.obj cfs) => cfs
      | _ => []
    listAssign fields (part, .obj (setDeepGo child value rest))

/-- The `setDeep(obj, path, value)` of the source. -/
def setDeep (obj : List (String × JSONValue)) (path : String) (value : JSONValue) :
    List (String × JSONValue) :=
  setDeepGo obj value (jsSplit '.' path)

/-! ## Scan configuration and the mutation generator -/
structure ValueModes where
  booleanTrue : Bool
  stringAdmin : Bool
  numberOne : Bool
  numberPlusOne : Bool
  numberMinusOne : Bool

/-- The `ScanConfig.verification`. -/
inductive Verification where
  | Disabled
  | FollowUp (url : String) (method : String) (body : String) (delayMs : Int)

structure ScanConfig where
  maxMutations : Int
  includeBuiltInCandidates : Bool
  candidateFields : List String
  customValues : List String
  mutateExistingFields : Bool
  valueModes : ValueModes
  confirmPersistence : Bool
  persistenceDelayMs : Int
  verification : Verification

/-- A value candidate of the generator.  `Fixed none` is `Fixed(undefined)`:
the candidate produced by a custom value `"null"`. -/
inductive ValueCandidate where
  | Fixed (value : Option JSONValue)
  | NumericDelta (delta : Int)

structure Mutation where
  field : String
  value : JSONValue
  bodyText : String

def builtInCandidates : List String :=
  ["isAdmin", "admin", "is_staff", "isStaff", "isSuperuser",
   "role", "roles", "permissions", "tier", "plan"]

/-- The candidate-field cleanup loop: trim, drop empties, drop duplicates
keeping the first occurrence. -/
def candLoop : List String → List String → List String
  | [], acc => acc
  | raw :: rest, acc =>
    let trimmed := jsTrim raw
    if trimmed.length = 0 then candLoop rest acc
    else if acc.any (fun x => x = trimmed) then candLoop rest acc
    else candLoop rest (acc ++ [trimmed])

def buildCandidateFields (config : ScanConfig) : List String :=
  let rawCandidates :=
    (if config.includeBuiltInCandidates then builtInCandidates else []) ++
    config.candidateFields
  candLoop rawCandidates []

/-- Conversion of one trimmed, non-empty custom value into the value of its
`Fixed` candidate (`none` = JS `undefined`).  A numeric literal always counts
as finite in the integer model, so the `Number.isFinite` guard is satisfied. -/
def customCandidateValue (trimmed : String) : Option JSONValue :=
  if trimmed = "true" then some (.bool true)
  else if trimmed = "false" then some (.bool false)
  else if trimmed = "null" then none
  else if matchesNumberLit trimmed.toList then some (.num (jsNumOfLit trimmed.toList))
  else if (strStarts trimmed "\x7b" && strEnds trimmed "\x7d") ||
          (strStarts trimmed "[" && strEnds trimmed "]") then
    match parseJsonValue trimmed with
    | .ok v => some v
    | .error _ => some (.str trimmed)
  else some (.str trimmed)

def customCands : List String → List ValueCandidate
  | [] => []
  | custom :: rest =>
    let trimmed := jsTrim custom
    if trimmed.length = 0 then customCands rest
    else ValueCandidate.Fixed (customCandidateValue trimmed) :: customCands rest

/-- The ordered value-candidate list: mode values, delta markers, then custom
values. -/
def buildValueCandidates (config : ScanConfig) : List ValueCandidate :=
  let values : List JSONValue :=
    (if config.valueModes.booleanTrue then [.bool true] else []) ++
    (if config.valueModes.stringAdmin then [.str "admin"] else []) ++
    (if config.valueModes.numberOne then [.num 1] else [])
  (values.map (fun v => ValueCandidate.Fixed (some v))) ++
  (if config.valueModes.numberPlusOne then [ValueCandidate.NumericDelta 1] else []) ++
  (if config.valueModes.numberMinusOne then [ValueCandidate.NumericDelta (-1)] else []) ++
  customCands config.customValues

/-- If no candidate was collected, fall back to `[Fixed(true)]`. -/
def valueCandidatesWithFallback (config : ScanConfig) : List ValueCandidate :=
  let vcs := buildValueCandidates config
  if vcs.length = 0 then [ValueCandidate.Fixed (some (.bool true))] else vcs

/-- Value resolution inside the enumeration: `Fixed(v)` is `v` itself, a
numeric delta applies to a numeric or pure-digit existing value and is
otherwise `undefined` (skipped by the caller). -/
def resolveCandidate (existingValue : Option JSONValue) :
    ValueCandidate → Option JSONValue
  | .Fixed v => v
  | .NumericDelta delta =>
    match existingValue with
    | some (.num n) => some (.num (n + delta))
    | some (.str s) =>
      if matchesDigits s.toList then
        some (.str (toString ((digitsToNat s.toList : Int) + delta)))
      else none
    | _ => none

/-- The `typeof value === "number" && !Number.isFinite(value)`: never true in the
integer model; kept to mirror the source control flow. -/
def numNotFinite : JSONValue → Bool := fun _ => false

/-- The no-op skip: when mutating existing fields, a primitive existing value
whose stringification equals the candidate's is not re-emitted.  (`null` has
`typeof === "object"` and does not pass the guard.) -/
def shouldSkipNoop (config : ScanConfig) (existingValue : Option JSONValue)
    (value : JSONValue) : Bool :=
  config.mutateExistingFields &&
  (match existingValue with
   | some (.str _) => true
   | some (.num _) => true
   | some (.bool _) => true
   | _ => false) &&
  (safeStringify existingValue = safeStringify (some value))

/-- Inner enumeration loop over the value candidates of one field. -/
def innerLoop (original : List (String × JSONValue)) (maxMutations : Int)
    (config : ScanConfig) (field : String) (existingValue : Option JSONValue) :
    List ValueCandidate → List Mutation → List Mutation
  | [], acc => acc
  | candidate :: cands, acc =>
    if (acc.length : Int) ≥ maxMutations then acc
    else
      match resolveCandidate existingValue candidate with
      | none => innerLoop original maxMutations config field existingValue cands acc
      | some value =>
        if numNotFinite value then
          innerLoop original maxMutations config field existingValue cands acc
        else if shouldSkipNoop config existingValue value then
          innerLoop original maxMutations config field existingValue cands acc
        else
          innerLoop original maxMutations config field existingValue cands
            (acc ++ [{ field := field, value := value,
                       bodyText := stringifyJson (.obj (setDeep original field value)) }])

/-- Outer enumeration loop over the candidate fields. -/
def outerLoop (original : List (String × JSONValue)) (maxMutations : Int)
    (config : ScanConfig) (vcs : List ValueCandidate) :
    List String → List Mutation → List Mutation
  | [], acc => acc
  | field :: fields, acc =>
    if (acc.length : Int) ≥ maxMutations then acc
    else if !config.mutateExistingFields && objHasKey original field then
      outerLoop original maxMutations config vcs fields acc
    else
      outerLoop original maxMutations config vcs fields
        (innerLoop original maxMutations config field (objLookup original field) vcs acc)

/-- The `buildMutations` of the source. -/
def buildMutations (original : List (String × JSONValue)) (maxMutations : Int)
    (config : ScanConfig) : List Mutation :=
  outerLoop original maxMutations config (valueCandidatesWithFallback config)
    (buildCandidateFields config) []

/-! ## Findings -/
inductive FindingKind where
  | Reflected
  | Persisted
  | CodeChanged
  | StateChanged
  | NonJsonResponse
  | NoResponse
deriving DecidableEq

def FindingKind.toStr : FindingKind → String
  | .Reflected => "Reflected"
  | .Persisted => "Persisted"
  | .CodeChanged => "CodeChanged"
  | .StateChanged => "StateChanged"
  | .NonJsonResponse => "NonJsonResponse"
  | .NoResponse => "NoResponse"

/-- A stored HTTP response as observed by the scan: status code and optional
body text. -/
structure Resp where
  code : Nat
  body : Option String

structure ScanFinding where
  id : String
  requestId : String
  field : String
  value : String
  kind : FindingKind
  baselineCode : Option Nat
  mutatedCode : Option Nat
  persistedCode : Option Nat
  mutatedRequestId : Option String
  persistedRequestId : Option String
  verifyBaselineRequestId : Option String
  verifyRequestId : Option String
  baselineBodySnippet : Option String
  mutatedBodySnippet : Option String
  persistedBodySnippet : Option String
  message : String

/-- The named-parameter record of `makeFinding`. -/
structure MakeFindingParams where
  requestId : String
  field : String
  value : JSONValue
  kind : FindingKind
  baselineResponse : Option Resp
  mutatedResponse : Option Resp
  persistedResponse : Option Resp
  mutatedRequestId : Option String
  persistedRequestId : Option String
  verifyBaselineRequestId : Option String
  verifyRequestId : Option String
  baselineBodySnippet : Option String
  mutatedBodySnippet : Option String
  persistedBodySnippet : Option String
  details : String

/-- The `makeFinding` of the source. -/
def makeFinding (params : MakeFindingParams) : ScanFinding :=
  { id := params.requestId ++ ":" ++ params.kind.toStr ++ ":" ++ params.field ++
          ":" ++ safeStringify (some params.value)
    requestId := params.requestId
    field := params.field
    value := safeStringify (some params.value)
    kind := params.kind
    baselineCode := params.baselineResponse.map (fun r => r.code)
    mutatedCode := params.mutatedResponse.map (fun r => r.code)
    persistedCode := params.persistedResponse.map (fun r => r.code)
    mutatedRequestId := params.mutatedRequestId
    persistedRequestId := params.persistedRequestId
    verifyBaselineRequestId := params.verifyBaselineRequestId
    verifyRequestId := params.verifyRequestId
    baselineBodySnippet := params.baselineBodySnippet
    mutatedBodySnippet := params.mutatedBodySnippet
    persistedBodySnippet := params.persistedBodySnippet
    message := params.field ++ "=" ++ safeStringify (some params.value) ++
               " — " ++ params.details }

/-! ## Request adapter helpers -/
def truncateText : Option String → Nat → Option String
  | none, _ => none
  | some text, max => if text.length ≤ max then some text else some (strTake text max)

/-- The `headersToPairs`: flatten a header record, dropping `Content-Length`,
`Transfer-Encoding` and `Host` (case-insensitively). -/
def headersToPairs : List (String × List String) → List (String × String)
  | [] => []
  | (name, values) :: rest =>
    let lower := jsToLower name
    if lower = "content-length" || lower = "transfer-encoding" || lower = "host" then
      headersToPairs rest
    else values.map (fun v => (name, v)) ++ headersToPairs rest

/-- A stored request (`saved.request` plus `saved.response`). -/
structure SavedRequest where
  url : String
  headers : List (String × List String)
  body : Option String
  response : Option Resp

/-- The `request.getHeader(name)?.[0]`: exact-name lookup, first value. -/
def getHeaderFirst (headers : List (String × List String)) (name : String) :
    Option String :=
  (listLookup headers name).bind List.head?

/-- The `getContentType`: `Content-Type` or `content-type`. -/
def getContentType (headers : List (String × List String)) : Option String :=
  match getHeaderFirst headers "Content-Type" with
  | some v => some v
  | none => getHeaderFirst headers "content-type"

/-- The `isJsonRequest` of the source. -/
def isJsonRequest (req : SavedRequest) : Bool :=
  let ctOk := match getContentType req.headers with
    | some ct => strIncludes (jsToLower ct) "application/json"
    | none => false
  if ctOk then true
  else
    match req.body with
    | none => false
    | some bodyText =>
      if bodyText.length > 1000000 then false
      else
        let trimmed := jsTrimStart bodyText
        if !strStarts trimmed "\x7b" then false
        else
          match parseJsonValue trimmed with
          | .ok v => isRecord v
          | .error _ => false

/-- The regular expression `/^https?:\/\/\S+$/i`. -/
def matchesFullUrl (s : String) : Bool :=
  let cs := s.toList
  let lower := cs.map jsToLowerChar
  let tail :=
    if listIsPre ['h','t','t','p','s',':','/','/'] lower then some (cs.drop 8)
    else if listIsPre ['h','t','t','p',':','/','/'] lower then some (cs.drop 7)
    else none
  match tail with
  | some t => !t.isEmpty && t.all (fun c => !jsWhitespace c)
  | none => false

/-- The regular expression `/^(https?):\/\/([^\/?#]+)(?:[\/?#]|$)/i`: returns
the scheme (original casing) and the host-port capture. -/
def matchBaseUrl (s : String) : Option (String × String) :=
  let cs := s.toList
  let lower := cs.map jsToLowerChar
  let schemeLen :=
    if listIsPre ['h','t','t','p','s',':','/','/'] lower then some 5
    else if listIsPre ['h','t','t','p',':','/','/'] lower then some 4
    else none
  match schemeLen with
  | none => none
  | some n =>
    let scheme : List Char := cs.take n
    let afterScheme := cs.drop (n + 3)
    let hostPort := afterScheme.takeWhile (fun c => c ≠ '/' && c ≠ '?' && c ≠ '#')
    if hostPort.isEmpty then none
    else some (⟨scheme⟩, ⟨hostPort⟩)

/-- The `resolveUrl` of the source. -/
def resolveUrl (input baseUrl : String) : Result String :=
  let trimmed := jsTrim input
  if trimmed.length = 0 then .error "verification url is required"
  else if matchesFullUrl trimmed then .ok trimmed
  else
    match matchBaseUrl baseUrl with
    | none => .error "baseline url is invalid"
    | some (scheme, hostPort) =>
      let origin := scheme ++ "://" ++ hostPort
      let path := if strStarts trimmed "/" then trimmed else "/" ++ trimmed
      .ok (origin ++ path)

/-! ## Raw request parsing (`parseRawRequestSpec`) -/
structure SaveRawRequestInput where
  host : String
  port : Int
  isTls : Bool
  raw : String

/-- The mutable request specification built by the adapter. -/
structure RequestSpec where
  url : String
  method : String
  headers : List (String × String)
  body : String

def replCrLf : List Char → List Char
  | [] => []
  | '\r' :: '\n' :: rest => '\n' :: replCrLf rest
  | c :: rest => c :: replCrLf rest

/-- The `raw.replace(/\r\n/g, "\n")`. -/
def jsReplaceCrLf (s : String) : String := ⟨replCrLf s.toList⟩

/-- The `flush()` of the header-folding loop: emit the pending header unless it is
`Content-Length` or `Transfer-Encoding`. -/
def flushPair (cur : Option (String × String)) (acc : List (String × String)) :
    List (String × String) :=
  match cur with
  | none => acc
  | some (name, value) =>
    let lower := jsToLower name
    if lower = "content-length" ∨ lower = "transfer-encoding" then acc
    else acc ++ [(name, value)]

/-- The header-folding loop over the lines after the request line: a leading
space or tab continues the previous header; otherwise flush and start a new
`name: value` pair (`indexOf(":") <= 0` or an empty name skips the line). -/
def foldHeaderLines : List String → Option (String × String) →
    List (String × String) → List (String × String)
  | [], cur, acc => flushPair cur acc
  | line :: rest, cur, acc =>
    if strStarts line " " || strStarts line "\t" then
      match cur with
      | some (n, v) => foldHeaderLines rest (some (n, jsTrim (v ++ " " ++ jsTrim line))) acc
      | none => foldHeaderLines rest none acc
    else
      let acc2 := flushPair cur acc
      match firstIdxOfChar ':' line.toList with
      | none => foldHeaderLines rest none acc2
      | some idx =>
        if idx = 0 then foldHeaderLines rest none acc2
        else
          let name := jsTrim (strTake line idx)
          let value := jsTrim (strDrop line (idx + 1))
          if name.length = 0 then foldHeaderLines rest none acc2
          else foldHeaderLines rest (some (name, value)) acc2

/-- The part of `parseRawRequestSpec` after the host and port validations. -/
def parseRawTail (input : SaveRawRequestInput) (host : String) : Result RequestSpec :=
    let rawNormalized := jsReplaceCrLf input.raw
    let splitIdx := firstInfixIdx ['\n', '\n'] rawNormalized.toList
    let headerBlock := match splitIdx with
      | none => rawNormalized
      | some i => strTake rawNormalized i
    let bodyText := match splitIdx with
      | none => ""
      | some i => strDrop rawNormalized (i + 2)
    let headerLines :=
      ((jsSplit '\n' headerBlock).map jsTrimEnd).filter (fun l => l.length > 0)
    match headerLines with
    | [] => .error "request is empty"
    | requestLine :: restLines =>
      match jsSplitWs requestLine with
      | [] => .error "invalid request line"
      | methodRaw :: parts1 =>
      match parts1 with
      | [] => .error "invalid request line"
      | targetRaw :: _ =>
        let scheme := if input.isTls then "https" else "http"
        let base := scheme ++ "://" ++ host ++ ":" ++ toString input.port
        let url :=
          if strStarts targetRaw "http://" || strStarts targetRaw "https://" then targetRaw
          else if strStarts targetRaw "/" then base ++ targetRaw
          else base ++ "/" ++ targetRaw
        let headerPairs := foldHeaderLines restLines none []
        .ok { url := url, method := jsTrim methodRaw,
              headers := headerPairs, body := bodyText }

/-- The `parseRawRequestSpec` of the source. -/
def parseRawRequestSpec (input : SaveRawRequestInput) : Result RequestSpec :=
  let host := jsTrim input.host
  if host.length = 0 then .error "host is required"
  else if input.port < 1 ∨ input.port > 65535 then .error "port is invalid"
  else parseRawTail input host

/-! ## Scan orchestrator

`runScan` is embedded as a pure state machine over an explicit environment:
the environment answers the store lookup and every host `send`, and carries
the concurrent `stopScan` signals observable at each loop-iteration boundary.
Every attempted send is recorded as a `SendEvent` so that "no request was
sent" is a statement about the outcome. -/
structure ScanTarget where
  requestId : String

structure ScanResult where
  baselineRequestId : String
  findings : List ScanFinding

inductive SendEvent where
  | baseline
  | verifyBaseline
  | mutated (i : Nat)
  | verifyMutated (i : Nat)
  | persisted (i : Nat)
deriving DecidableEq

/-- Result of a host `send` that the code inspects: the new request's id and
its optional response. -/
structure SentR where
  requestId : String
  response : Option Resp

/-- The I/O environment of one `runScan` call.  A `none` send models the host
`send` throwing.  The mutated send carries a present response because the
source reads `sent.response.getCode()` without a check.  `stopSignal i` models
a concurrent `stopScan` landing before the cancellation check of iteration
`i`. -/
structure ScanEnv where
  savedRequest : Option SavedRequest
  baselineSend : Option (Option Resp)
  verifySend : Option SentR
  mutatedSend : Nat → Option (String × Resp)
  verifyMutSend : Nat → Option SentR
  persistedSend : Nat → Option SentR
  stopSignal : Nat → Bool

/-- The `stopScan`: sets the process-wide `shouldStopScan` flag. -/
def stopScan (_shouldStopScan : Bool) : Bool := true

/-- The `verification.delayMs` bounds check of the validation prologue. -/
def verificationDelayError : Verification → Option String
  | .Disabled => none
  | .FollowUp _ _ _ delayMs =>
    if delayMs < 0 then some "verification.delayMs must be >= 0"
    else if delayMs > 10000 then some "verification.delayMs must be <= 10000"
    else none

/-- Everything the mutation loop needs, assembled by the pre-loop states of
`runScan`. -/
structure LoopCtx where
  requestId : String
  baselineResponse : Option Resp
  baselineBodySnippet : Option String
  baselineJson : Option (Result JSONValue)
  originalBodyText : String
  verifyUrlResolved : Option String
  verifyBaselineRequestId : Option String
  verifyBaselineResponse : Option Resp
  verifyBaselineJson : Option (List (String × JSONValue))
  verifyBaselineBodySnippet : Option String
  mutations : List Mutation
  preSends : List SendEvent

/-- The pre-loop part of `runScan`: validation, target resolution, baseline
ensure, optional verification baseline, mutation construction.  Errors carry
the send events already performed. -/
def preScan (env : ScanEnv) (target : ScanTarget) (config : ScanConfig) :
    Except (String × List SendEvent) LoopCtx :=
  if config.maxMutations < 1 then .error ("maxMutations must be >= 1", [])
  else if config.maxMutations > 256 then .error ("maxMutations must be <= 256", [])
  else if config.persistenceDelayMs < 0 then
    .error ("persistenceDelayMs must be >= 0", [])
  else if config.persistenceDelayMs > 10000 then
    .error ("persistenceDelayMs must be <= 10000", [])
  else if config.candidateFields.length > 5000 then
    .error ("candidateFields is too large", [])
  else
    match verificationDelayError config.verification with
    | some e => .error (e, [])
    | none =>
      let trimmedRequestId := jsTrim target.requestId
      if trimmedRequestId.length = 0 then .error ("requestId is required", [])
      else
        match env.savedRequest with
        | none => .error ("request " ++ trimmedRequestId ++ " not found", [])
        | some saved =>
          if !isJsonRequest saved then
            .error ("request Content-Type is not application/json", [])
          else
            match saved.body with
            | none => .error ("request body is empty", [])
            | some bodyText =>
              match parseJsonValue bodyText with
              | .error e => .error (e, [])
              | .ok parsed =>
                match parsed with
                | .obj originalJson =>
                  let ensured : Except (String × List SendEvent)
                      (Option Resp × List SendEvent) :=
                    match saved.response with
                    | some r => .ok (some r, [])
                    | none =>
                      match env.baselineSend with
                      | none =>
                        .error ("failed to send baseline request", [SendEvent.baseline])
                      | some resp => .ok (resp, [SendEvent.baseline])
                  match ensured with
                  | .error e => .error e
                  | .ok (baselineResponse, sends1) =>
                    let baselineText := baselineResponse.bind (fun r => r.body)
                    let baselineBodySnippet := truncateText baselineText 4000
                    let baselineJson := baselineText.map parseJsonValue
                    let verbuilt : Except (String × List SendEvent)
                        ((Option String × Option String × Option Resp ×
                          Option (List (String × JSONValue)) × Option String) ×
                         List SendEvent) :=
                      match config.verification with
                      | .Disabled => .ok ((none, none, none, none, none), sends1)
                      | .FollowUp url _ _ _ =>
                        match resolveUrl url saved.url with
                        | .error e => .error (e, sends1)
                        | .ok verifyUrlResolved =>
                          match env.verifySend with
                          | none =>
                            .error ("failed to send verification request",
                                    sends1 ++ [SendEvent.verifyBaseline])
                          | some verifySent =>
                            match verifySent.response with
                            | none =>
                              .error ("verification request has no response",
                                      sends1 ++ [SendEvent.verifyBaseline])
                            | some vResp =>
                              let verifyText := vResp.body
                              let snippet := truncateText verifyText 4000
                              let vJson :=
                                match verifyText with
                                | some t =>
                                  match parseJsonValue t with
                                  | .ok (.obj fs) => some fs
                                  | _ => none
                                | none => none
                              .ok ((some verifyUrlResolved,
                                    some verifySent.requestId, some vResp,
                                    vJson, snippet),
                                   sends1 ++ [SendEvent.verifyBaseline])
                    match verbuilt with
                    | .error e => .error e
                    | .ok ((verifyUrlResolved, verifyBaselineRequestId,
                            verifyBaselineResponse, verifyBaselineJson,
                            verifyBaselineBodySnippet), sends2) =>
                      let mutations :=
                        buildMutations originalJson config.maxMutations config
                      if mutations.length = 0 then
                        .error ("no mutations generated (all candidate fields already exist in request body)",
                                sends2)
                      else
                        .ok { requestId := trimmedRequestId
                              baselineResponse := baselineResponse
                              baselineBodySnippet := baselineBodySnippet
                              baselineJson := baselineJson
                              originalBodyText := bodyText
                              verifyUrlResolved := verifyUrlResolved
                              verifyBaselineRequestId := verifyBaselineRequestId
                              verifyBaselineResponse := verifyBaselineResponse
                              verifyBaselineJson := verifyBaselineJson
                              verifyBaselineBodySnippet := verifyBaselineBodySnippet
                              mutations := mutations
                              preSends := sends2 }
                | _ => .error ("request JSON body must be an object", [])

/-- The noisy-leaf filter of the follow-up diff. -/
def noisyKeys : List String :=
  ["id", "createdAt", "updatedAt", "timestamp", "time", "iat", "exp", "nonce", "imageUrl"]

def isNoisyPath (path : String) : Bool :=
  noisyKeys.any (fun k => path = k || strEnds path ("." ++ k))

/-- The change-collection loop of the follow-up diff: entries of the new
flattened map whose baseline value exists, differs, and is not noisy. -/
def computeChanged (basePrims : List (String × String)) :
    List (String × String) → List String
  | [] => []
  | (path, val) :: rest =>
    (match listLookup basePrims path with
     | some baselineVal =>
       if baselineVal = val then []
       else if isNoisyPath path then []
       else [path ++ ": " ++ baselineVal ++ " -> " ++ val]
     | none => []) ++ computeChanged basePrims rest

/-- The `baselineJson.kind === "Ok" && containsKeyDeep(...)`. -/
def baselineHadKey (ctx : LoopCtx) (field : String) : Bool :=
  match ctx.baselineJson with
  | some (.ok v) => containsKeyDeep v field
  | _ => false

/-- The `NoResponse` finding pushed when the mutated send throws. -/
def noResponseFinding (ctx : LoopCtx) (m : Mutation) : ScanFinding :=
  makeFinding
    { requestId := ctx.requestId, field := m.field, value := m.value
      kind := .NoResponse
      baselineResponse := ctx.baselineResponse
      mutatedResponse := none, persistedResponse := none
      mutatedRequestId := none, persistedRequestId := none
      verifyBaselineRequestId := none, verifyRequestId := none
      baselineBodySnippet := ctx.baselineBodySnippet
      mutatedBodySnippet := none, persistedBodySnippet := none
      details := "failed to send request" }

/-- The status-code diff of one mutation. -/
def codeDiffStep (ctx : LoopCtx) (m : Mutation) (mutatedRequestId : String)
    (mutatedResponse : Resp) : List ScanFinding :=
  let baselineCode := ctx.baselineResponse.map (fun r => r.code)
  match baselineCode with
    | some bc =>
      if mutatedResponse.code ≠ bc then
        [makeFinding
          { requestId := ctx.requestId, field := m.field, value := m.value
            kind := .CodeChanged
            baselineResponse := ctx.baselineResponse
            mutatedResponse := some mutatedResponse, persistedResponse := none
            mutatedRequestId := some mutatedRequestId, persistedRequestId := none
            verifyBaselineRequestId := none, verifyRequestId := none
            baselineBodySnippet := ctx.baselineBodySnippet
            mutatedBodySnippet := none, persistedBodySnippet := none
            details := "status code changed " ++ toString bc ++ " -> " ++
                       toString mutatedResponse.code }]
      else []
    | none => []

/-- The follow-up state-diff block of one mutation. -/
def verifyDiffStep (env : ScanEnv) (config : ScanConfig) (ctx : LoopCtx)
    (i : Nat) (m : Mutation) (mutatedRequestId : String) :
    List ScanFinding × List SendEvent :=
    match config.verification, ctx.verifyBaselineJson, ctx.verifyUrlResolved,
          ctx.verifyBaselineRequestId with
    | .FollowUp _ _ _ _, some verifyBaselineJson, some _, some verifyBaselineRequestId =>
      match env.verifyMutSend i with
      | none => ([], [SendEvent.verifyMutated i])
      | some verifySent =>
        match verifySent.response with
        | none => ([], [SendEvent.verifyMutated i])
        | some vResp =>
          match vResp.body with
          | none => ([], [SendEvent.verifyMutated i])
          | some verifyText =>
            match parseJsonValue verifyText with
            | .ok (.obj newJson) =>
              let changed :=
                computeChanged (getAllPrimitives (.obj verifyBaselineJson) "")
                  (getAllPrimitives (.obj newJson) "")
              if changed.length > 0 then
                ([makeFinding
                   { requestId := ctx.requestId, field := m.field, value := m.value
                     kind := .StateChanged
                     baselineResponse := ctx.verifyBaselineResponse
                     mutatedResponse := some vResp, persistedResponse := none
                     mutatedRequestId := some mutatedRequestId
                     persistedRequestId := none
                     verifyBaselineRequestId := some verifyBaselineRequestId
                     verifyRequestId := some verifySent.requestId
                     baselineBodySnippet := ctx.verifyBaselineBodySnippet
                     mutatedBodySnippet := truncateText (some verifyText) 4000
                     persistedBodySnippet := none
                     details := "state changed via follow-up (" ++
                                joinSep ", " changed ++ ")" }],
                 [SendEvent.verifyMutated i])
              else ([], [SendEvent.verifyMutated i])
            | _ => ([], [SendEvent.verifyMutated i])
    | _, _, _, _ => ([], [])

/-- The body diff on the mutated response, with the optional persistence
probe. -/
def bodyDiffStep (env : ScanEnv) (config : ScanConfig) (ctx : LoopCtx)
    (i : Nat) (m : Mutation) (mutatedRequestId : String) (mutatedResponse : Resp) :
    List ScanFinding × List SendEvent :=
    match mutatedResponse.body with
    | none => ([], [])
    | some mutatedText =>
      let mutatedBodySnippet := truncateText (some mutatedText) 4000
      match parseJsonValue mutatedText with
      | .error _ =>
        ([makeFinding
           { requestId := ctx.requestId, field := m.field, value := m.value
             kind := .NonJsonResponse
             baselineResponse := ctx.baselineResponse
             mutatedResponse := some mutatedResponse, persistedResponse := none
             mutatedRequestId := some mutatedRequestId, persistedRequestId := none
             verifyBaselineRequestId := none, verifyRequestId := none
             baselineBodySnippet := ctx.baselineBodySnippet
             mutatedBodySnippet := mutatedBodySnippet, persistedBodySnippet := none
             details := "response is not JSON" }], [])
      | .ok mutatedJson =>
        let mutatedTop := getPrimitiveDeep mutatedJson m.field
        let baselineTop :=
          match ctx.baselineJson with
          | some (.ok bj) => getPrimitiveDeep bj m.field
          | _ => none
        match mutatedTop with
        | none => ([], [])
        | some mt =>
          if safeStringify (some mt) = safeStringify (some m.value) then
            let isNewKey := !baselineHadKey ctx m.field
            let valueChanged :=
              match baselineTop with
              | none => true
              | some bt => safeStringify (some bt) ≠ safeStringify (some m.value)
            let reflFinding :=
              makeFinding
                { requestId := ctx.requestId, field := m.field, value := m.value
                  kind := .Reflected
                  baselineResponse := ctx.baselineResponse
                  mutatedResponse := some mutatedResponse, persistedResponse := none
                  mutatedRequestId := some mutatedRequestId, persistedRequestId := none
                  verifyBaselineRequestId := none, verifyRequestId := none
                  baselineBodySnippet := ctx.baselineBodySnippet
                  mutatedBodySnippet := mutatedBodySnippet, persistedBodySnippet := none
                  details :=
                    if isNewKey then "response contains injected key"
                    else if valueChanged then "response contains overridden value"
                    else "response echoed injected value" }
            if config.confirmPersistence then
              match env.persistedSend i with
              | none => ([reflFinding], [SendEvent.persisted i])
              | some persistedSent =>
                let persistedText := persistedSent.response.bind (fun r => r.body)
                let persistedBodySnippet := truncateText persistedText 4000
                match persistedText with
                | none => ([reflFinding], [SendEvent.persisted i])
                | some pt =>
                  match parseJsonValue pt with
                  | .error _ => ([reflFinding], [SendEvent.persisted i])
                  | .ok persistedJson =>
                    match getPrimitiveDeep persistedJson m.field with
                    | some persistedTop =>
                      if safeStringify (some persistedTop) =
                         safeStringify (some m.value) then
                        ([reflFinding,
                          makeFinding
                            { requestId := ctx.requestId, field := m.field
                              value := m.value, kind := .Persisted
                              baselineResponse := ctx.baselineResponse
                              mutatedResponse := some mutatedResponse
                              persistedResponse := persistedSent.response
                              mutatedRequestId := some mutatedRequestId
                              persistedRequestId := some persistedSent.requestId
                              verifyBaselineRequestId := none, verifyRequestId := none
                              baselineBodySnippet := ctx.baselineBodySnippet
                              mutatedBodySnippet := mutatedBodySnippet
                              persistedBodySnippet := persistedBodySnippet
                              details := "injected value present after baseline replay" }],
                         [SendEvent.persisted i])
                      else ([reflFinding], [SendEvent.persisted i])
                    | none => ([reflFinding], [SendEvent.persisted i])
            else ([reflFinding], [])
          else ([], [])

/-- The classification of one mutation after a successful mutated send:
status-code diff, optional follow-up state diff, body diff with optional
persistence probe.  Returns the findings pushed and the further sends
attempted, in order. -/
def classifyMutation (env : ScanEnv) (config : ScanConfig) (ctx : LoopCtx)
    (i : Nat) (m : Mutation) (mutatedRequestId : String) (mutatedResponse : Resp) :
    List ScanFinding × List SendEvent :=
  let verifyStep := verifyDiffStep env config ctx i m mutatedRequestId
  let bodyStep := bodyDiffStep env config ctx i m mutatedRequestId mutatedResponse
  (codeDiffStep ctx m mutatedRequestId mutatedResponse ++ verifyStep.1 ++ bodyStep.1,
   verifyStep.2 ++ bodyStep.2)

/-- The mutation loop: consult the cancellation flag at each iteration
boundary, send the mutant, classify, accumulate findings and send events. -/
def scanLoop (env : ScanEnv) (config : ScanConfig) (ctx : LoopCtx) :
    List Mutation → Nat → Bool → List ScanFinding → List SendEvent →
    Bool × List ScanFinding × List SendEvent
  | [], _, flag, findings, sends => (flag, findings, sends)
  | m :: rest, i, flag, findings, sends =>
    let flag2 := flag || env.stopSignal i
    if flag2 then (flag2, findings, sends)
    else
      match env.mutatedSend i with
      | none =>
        scanLoop env config ctx rest (i + 1) flag2
          (findings ++ [noResponseFinding ctx m]) (sends ++ [SendEvent.mutated i])
      | some (mutatedRequestId, mutatedResponse) =>
        let step := classifyMutation env config ctx i m mutatedRequestId mutatedResponse
        scanLoop env config ctx rest (i + 1) flag2
          (findings ++ step.1) (sends ++ [SendEvent.mutated i] ++ step.2)

/-- The full outcome of a `runScan` call: the returned `Result`, the send
events performed, and the value of the `shouldStopScan` flag on return. -/
structure ScanOutcome where
  result : Result ScanResult
  sends : List SendEvent
  stopFlag : Bool

/-- The `runScan` of the source.  `shouldStopScan` is the value of the
process-wide flag when the call starts; the source's first statement
`shouldStopScan = false` is the shadowing `let` below. -/
def runScan (env : ScanEnv) (target : ScanTarget) (config : ScanConfig)
    (shouldStopScan : Bool) : ScanOutcome :=
  let shouldStopScan := false
  match preScan env target config with
  | .error (e, sends) => { result := .error e, sends := sends, stopFlag := shouldStopScan }
  | .ok ctx =>
    let out := scanLoop env config ctx ctx.mutations 0 shouldStopScan [] ctx.preSends
    { result := .ok { baselineRequestId := ctx.requestId, findings := out.2.1 }
      sends := out.2.2
      stopFlag := out.1 }

/-- Findings list of an outcome (empty on error). -/
def resultFindings (o : ScanOutcome) : List ScanFinding :=
  match o.result with
  | .ok r => r.findings
  | .error _ => []

/-! ## `createFindings` -/
/-- One entry of the `createFindings` input. -/
structure CreateFindingsInputFinding where
  field : String
  value : String
  kind : FindingKind
  message : String
  mutatedRequestId : Option String
  persistedRequestId : Option String
  verifyRequestId : Option String

structure CreateFindingsInput where
  requestId : String
  findings : List CreateFindingsInputFinding

/-- One issue written to the host findings sink. -/
structure CreatedIssue where
  title : String
  description : String
  reporter : String
  dedupeKey : String
  request : String

structure CreateFindingsOutcome where
  created : Nat
  issues : List CreatedIssue

/-- The description block assembled for each finding. -/
def describeFinding (trimmedRequestId : String) (f : CreateFindingsInputFinding) :
    String :=
  joinSep "\n"
    ([f.message, "Baseline ID: " ++ trimmedRequestId, "Value: " ++ f.value] ++
     (match f.mutatedRequestId with
      | some m => ["Mutated ID: " ++ m]
      | none => []) ++
     (match f.persistedRequestId with
      | some p => ["Persisted ID: " ++ p]
      | none => []))

/-- The attached-request selection of the source: branch on kind and id
presence; inside the chosen branch a failed store lookup leaves the baseline
request attached. -/
def attachRequest (store : String → Option String) (baselineRequest : String)
    (f : CreateFindingsInputFinding) : String :=
  if f.kind = FindingKind.StateChanged && f.verifyRequestId.isSome then
    match f.verifyRequestId.bind store with
    | some r => r
    | none => baselineRequest
  else if f.kind = FindingKind.Persisted && f.persistedRequestId.isSome then
    match f.persistedRequestId.bind store with
    | some r => r
    | none => baselineRequest
  else
    match f.mutatedRequestId with
    | some mid =>
      match store mid with
      | some r => r
      | none => baselineRequest
    | none => baselineRequest

/-- The `createFindings` of the source.  The host store is the function `store`
(stored requests referenced by id); the findings sink is modelled as
infallible, so the `failed to create findings` path is not represented. -/
def createFindings (store : String → Option String) (input : CreateFindingsInput) :
    Result CreateFindingsOutcome :=
  let trimmedRequestId := jsTrim input.requestId
  if trimmedRequestId.length = 0 then .error "requestId is required"
  else if input.findings.length = 0 then .error "findings is empty"
  else if input.findings.length > 200 then .error "too many findings"
  else
    match store trimmedRequestId with
    | none => .error ("request " ++ trimmedRequestId ++ " not found")
    | some baselineRequest =>
      let issues := input.findings.map (fun f =>
        ({ title := "Mass Assignment Radar: " ++ f.kind.toStr ++ " " ++ f.field
           description := describeFinding trimmedRequestId f
           reporter := "Mass Assignment Radar"
           dedupeKey := trimmedRequestId ++ ":" ++ f.kind.toStr ++ ":" ++ f.field
           request := attachRequest store baselineRequest f } : CreatedIssue))
      .ok { created := issues.length, issues := issues }

def issuesOf : Result CreateFindingsOutcome → List CreatedIssue
  | .ok o => o.issues
  | .error _ => []

/-- The claim's side condition on a path: every intermediate that exists in
the baseline object along the split path is itself an object. -/
def pathObjIntermediates : List (String × JSONValue) → List String → Bool
  | _, [] => true
  | _, [_] => true
  | fs, part :: rest =>
    match objLookup fs part with
    | some (.obj cfs) => pathObjIntermediates cfs rest
    | some _ => false
    | none => true

/-- The configuration of the C1 counterexample and witness: one candidate
field `x`, one custom value `"{}"`, no built-ins, no value modes. -/
def cfgC1x : ScanConfig :=
  { maxMutations := 16
    includeBuiltInCandidates := false
    candidateFields := ["x"]
    customValues := ["\x7b\x7d"]
    mutateExistingFields := false
    valueModes :=
      { booleanTrue := false, stringAdmin := false, numberOne := false,
        numberPlusOne := false, numberMinusOne := false }
    confirmPersistence := false
    persistenceDelayMs := 0
    verification := .Disabled }

/-- The configuration of the C1 witness: one candidate field `x` and the
boolean-true value mode. -/
def cfgC1w : ScanConfig :=
  { cfgC1x with customValues := [],
                valueModes :=
                  { booleanTrue := true, stringAdmin := false, numberOne := false,
                    numberPlusOne := false, numberMinusOne := false } }

/-- The configuration of the C2 counterexample and witness: candidate field
`x` over baseline `{}`, and `"null"` as the only value source. -/
def cfgC2x : ScanConfig := { cfgC1x with customValues := ["null"] }

/-- An environment in which the host answers nothing: sufficient for the
validation-error claims, which never consult it. -/
def envQuiet : ScanEnv :=
  { savedRequest := none
    baselineSend := none
    verifySend := none
    mutatedSend := fun _ => none
    verifyMutSend := fun _ => none
    persistedSend := fun _ => none
    stopSignal := fun _ => false }

/-- An out-of-bounds configuration: `maxMutations = 0`. -/
def cfgC6x : ScanConfig :=
  { maxMutations := 0
    includeBuiltInCandidates := true
    candidateFields := []
    customValues := []
    mutateExistingFields := false
    valueModes :=
      { booleanTrue := true, stringAdmin := false, numberOne := false,
        numberPlusOne := false, numberMinusOne := false }
    confirmPersistence := false
    persistenceDelayMs := 0
    verification := .Disabled }

/-- The raw request of the C8 witness: it carries `Content-Length` and
`Transfer-Encoding` headers and a folded continuation line. -/
def inputC8 : SaveRawRequestInput :=
  { host := " h "
    port := 8080
    isTls := false
    raw := "POST /login HTTP/1.1\nContent-Length: 33\nX-Api: 1\n\tcont\nTransfer-Encoding: chunked\n\n\x7b\"a\":1\x7d" }

def specC8 : RequestSpec :=
  { url := "http://h:8080/login", method := "POST",
    headers := [("X-Api", "1 cont")], body := "\x7b\"a\":1\x7d" }

/-! ## Claim C7: `createFindings` -/
/-- The attachment rule in the words of the amended claim: the branch is
chosen by kind and id *presence*; if the chosen branch's store lookup fails,
the baseline request is attached — there is no fall-through to a later
branch. -/
def attachPerAmendedClaim (store : String → Option String) (baselineRequest : String)
    (f : CreateFindingsInputFinding) : String :=
  if f.kind = FindingKind.StateChanged ∧ f.verifyRequestId ≠ none then
    match f.verifyRequestId.bind store with
    | some r => r
    | none => baselineRequest
  else if f.kind = FindingKind.Persisted ∧ f.persistedRequestId ≠ none then
    match f.persistedRequestId.bind store with
    | some r => r
    | none => baselineRequest
  else if f.mutatedRequestId ≠ none then
    match f.mutatedRequestId.bind store with
    | some r => r
    | none => baselineRequest
  else baselineRequest

/-- The store of the C7 counterexample: the baseline and the mutated request
resolve, the verify request does not. -/
def storeC7 : String → Option String := fun id =>
  if id = "base" then some "REQ_BASE"
  else if id = "mid" then some "REQ_MUT"
  else none

def findingC7 : CreateFindingsInputFinding :=
  { field := "x", value := "true", kind := .StateChanged,
    message := "m", mutatedRequestId := some "mid",
    persistedRequestId := none, verifyRequestId := some "vid" }

/-! ## Claim C5: the persistence probe -/
/-- The condition under which the persistence probe confirms: the
persisted-replay response parses as JSON and `getPrimitiveDeep` at the field
stringifies equal to the injected value. -/
def persistedReplayConfirmed (env : ScanEnv) (i : Nat) (field valueStr : String) :
    Prop :=
  ∃ sent r s pj ptop,
    env.persistedSend i = some sent ∧ sent.response = some r ∧ r.body = some s ∧
    parseJsonValue s = Result.ok pj ∧ getPrimitiveDeep pj field = some ptop ∧
    safeStringify (some ptop) = valueStr

/-- The C5 property of a findings list: every `Persisted` entry implies
`confirmPersistence`, an earlier matching `Reflected` entry, and a mutation of
the scan with a confirmed persisted replay. -/
def persistedSplitProp (env : ScanEnv) (config : ScanConfig) (ctx : LoopCtx)
    (fs : List ScanFinding) : Prop :=
  ∀ l1 f l2, fs = l1 ++ f :: l2 → f.kind = FindingKind.Persisted →
    config.confirmPersistence = true ∧
    (∃ r ∈ l1, r.kind = FindingKind.Reflected ∧ r.field = f.field ∧
      r.value = f.value) ∧
    (∃ i m, ctx.mutations.get? i = some m ∧ m.field = f.field ∧
      safeStringify (some m.value) = f.value ∧
      persistedReplayConfirmed env i f.field f.value)

/-- The stored baseline request of the C5 and C9 witnesses. -/
def savedW : SavedRequest :=
  { url := "http://h:1/p"
    headers := [("Content-Type", ["application/json"])]
    body := some "\x7b\"a\":1\x7d"
    response := some { code := 200, body := some "\x7b\x7d" } }

def cfgC5w : ScanConfig :=
  { maxMutations := 16, includeBuiltInCandidates := false,
    candidateFields := ["x"], customValues := [],
    mutateExistingFields := false,
    valueModes :=
      { booleanTrue := true, stringAdmin := false, numberOne := false,
        numberPlusOne := false, numberMinusOne := false },
    confirmPersistence := true, persistenceDelayMs := 0,
    verification := .Disabled }

def envC5w : ScanEnv :=
  { savedRequest := some savedW
    baselineSend := none
    verifySend := none
    mutatedSend := fun i =>
      if i = 0 then some ("M0", { code := 200, body := some "\x7b\"x\":true\x7d" })
      else none
    verifyMutSend := fun _ => none
    persistedSend := fun i =>
      if i = 0 then
        some { requestId := "P0",
               response := some { code := 200, body := some "\x7b\"x\":true\x7d" } }
      else none
    stopSignal := fun _ => false }

def reflC5 : ScanFinding :=
  { id := "base:Reflected:x:true", requestId := "base", field := "x",
    value := "true", kind := .Reflected,
    baselineCode := some 200, mutatedCode := some 200, persistedCode := none,
    mutatedRequestId := some "M0", persistedRequestId := none,
    verifyBaselineRequestId := none, verifyRequestId := none,
    baselineBodySnippet := some "\x7b\x7d",
    mutatedBodySnippet := some "\x7b\"x\":true\x7d",
    persistedBodySnippet := none,
    message := "x=true — response contains injected key" }

def persC5 : ScanFinding :=
  { id := "base:Persisted:x:true", requestId := "base", field := "x",
    value := "true", kind := .Persisted,
    baselineCode := some 200, mutatedCode := some 200, persistedCode := some 200,
    mutatedRequestId := some "M0", persistedRequestId := some "P0",
    verifyBaselineRequestId := none, verifyRequestId := none,
    baselineBodySnippet := some "\x7b\x7d",
    mutatedBodySnippet := some "\x7b\"x\":true\x7d",
    persistedBodySnippet := some "\x7b\"x\":true\x7d",
    message := "x=true — injected value present after baseline replay" }

def cfgC9w : ScanConfig :=
  { cfgC5w with
      confirmPersistence := false
      verification := .FollowUp "/me" "GET" "" 0 }

def envC9w : ScanEnv :=
  { savedRequest := some savedW
    baselineSend := none
    verifySend := some { requestId := "V0"
                         response := some { code := 200, body := some "\x7b\"plan\":\"free\"\x7d" } }
    mutatedSend := fun i =>
      if i = 0 then some ("M0", { code := 200, body := some "\x7b\x7d" }) else none
    verifyMutSend := fun i =>
      if i = 0 then
        some { requestId := "V1"
               response := some { code := 200, body := some "\x7b\"plan\":\"pro\"\x7d" } }
      else none
    persistedSend := fun _ => none
    stopSignal := fun _ => false }

/-- The loop context produced by `preScan` in the C9 witness environment. -/
def ctxC9w : LoopCtx :=
  { requestId := "base"
    baselineResponse := some { code := 200, body := some "\x7b\x7d" }
    baselineBodySnippet := some "\x7b\x7d"
    baselineJson := some (Result.ok (JSONValue.obj []))
    originalBodyText := "\x7b\"a\":1\x7d"
    verifyUrlResolved := some "http://h:1/me"
    verifyBaselineRequestId := some "V0"
    verifyBaselineResponse := some { code := 200, body := some "\x7b\"plan\":\"free\"\x7d" }
    verifyBaselineJson := some [("plan", JSONValue.str "free")]
    verifyBaselineBodySnippet := some "\x7b\"plan\":\"free\"\x7d"
    mutations := [{ field := "x", value := JSONValue.bool true,
                    bodyText := "\x7b\"a\":1,\"x\":true\x7d" }]
    preSends := [SendEvent.verifyBaseline] }

/-! ## Lemmas about `setDeep` and `getPrimitiveDeep` -/
theorem objLookup_listAssign_self (fs : List (String × JSONValue)) (k : String)
    (v : JSONValue) : objLookup (listAssign fs (k, v)) k = some v := by
  induction fs with
  | nil => simp [listAssign, objLookup]
  | cons p rest ih =>
    obtain ⟨k', v'⟩ := p
    by_cases h : k' = k
    · simp [listAssign, h, objLookup]
    · simp [listAssign, h, objLookup, ih]

theorem splitCharList_ne_nil (sep : Char) (cs : List Char) :
    splitCharList sep cs ≠ [] := by
  induction cs with
  | nil => simp [splitCharList]
  | cons c rest ih =>
    simp only [splitCharList]
    split
    · simp
    · split
      · simp
      · simp

theorem splitCharList_not_mem (sep : Char) (cs : List Char) (h : sep ∉ cs) :
    splitCharList sep cs = [cs] := by
  induction cs with
  | nil => rfl
  | cons c rest ih =>
    have hc : ¬c = sep := by
      rintro rfl; exact h (List.mem_cons_self _ _)
    have hr : sep ∉ rest := fun hm => h (List.mem_cons_of_mem _ hm)
    simp only [splitCharList, if_neg hc, ih hr]

theorem strMk_toList (s : String) : (⟨s.toList⟩ : String) = s := by
  cases s; rfl

theorem pathLookup_setDeepGo (v : JSONValue) :
    ∀ (parts : List String) (fs : List (String × JSONValue)), parts ≠ [] →
      pathLookup (.obj (setDeepGo fs v parts)) parts = some v := by
  intro parts
  induction parts with
  | nil => intro fs h; exact absurd rfl h
  | cons a t ih =>
    intro fs _
    cases t with
    | nil =>
      simp [setDeepGo, pathLookup, objLookup_listAssign_self]
    | cons b t2 =>
      simp only [setDeepGo, pathLookup, objLookup_listAssign_self]
      exact ih _ (by simp)

theorem getPrimitiveDeep_setDeep (o : List (String × JSONValue)) (p : String)
    (v : JSONValue) (hv : isPrimitive v = true) :
    getPrimitiveDeep (.obj (setDeep o p v)) p = some v := by
  unfold getPrimitiveDeep setDeep
  by_cases h : strHasChar p '.'
  · rw [if_pos h]
    have hne : jsSplit '.' p ≠ [] := by
      unfold jsSplit
      intro hsplit
      exact splitCharList_ne_nil '.' p.toList (List.map_eq_nil_iff.mp hsplit)
    rw [pathLookup_setDeepGo v _ _ hne]
    simp [hv]
  · rw [if_neg h]
    have hnm : '.' ∉ p.toList := by
      intro hm
      exact h (by simpa [strHasChar] using List.elem_eq_true_of_mem hm)
    have hsplit : jsSplit '.' p = [p] := by
      unfold jsSplit
      rw [splitCharList_not_mem _ _ hnm]
      simp [strMk_toList]
    rw [hsplit]
    show gpdGo _ [JSONValue.obj (listAssign o (p, v))] p = some v
    simp [gpdGo, objLookup_listAssign_self, hv]

/-- Claim C3: for every JSON object `O`, primitive `v` and dotted path `p`
whose traversal through `O` meets only object intermediates,
`get_primitive_deep` after `set_deep(O, p, v)` returns a value that
stringifies like `v`. -/
theorem claim_C3 (O : List (String × JSONValue)) (p : String) (v : JSONValue)
    (hv : isPrimitive v = true)
    (_hpath : pathObjIntermediates O (jsSplit '.' p) = true) :
    safeStringify (getPrimitiveDeep (.obj (setDeep O p v)) p) =
      safeStringify (some v) := by
  rw [getPrimitiveDeep_setDeep O p v hv]

/-- Witness for C3 at `O = {"a": 1}`, `p = "b.c"`, `v = 7`. -/
theorem claim_C3_witness :
    isPrimitive (JSONValue.num 7) = true ∧
    pathObjIntermediates [("a", JSONValue.num 1)] (jsSplit '.' "b.c") = true ∧
    safeStringify
        (getPrimitiveDeep (.obj (setDeep [("a", JSONValue.num 1)] "b.c" (.num 7))) "b.c") =
      safeStringify (some (JSONValue.num 7)) :=
  ⟨rfl, rfl, claim_C3 [("a", JSONValue.num 1)] "b.c" (.num 7) rfl rfl⟩

/-! ## Lemmas about the mutation generator -/
/-- Every mutation emitted by the inner loop either was already accumulated or
carries the generator's body shape `stringifyJson (setDeep O field value)`. -/
theorem innerLoop_shape (O : List (String × JSONValue)) (maxM : Int)
    (cfg : ScanConfig) (f : String) (ex : Option JSONValue) :
    ∀ (cands : List ValueCandidate) (acc : List Mutation),
      (∀ m ∈ acc, m.bodyText = stringifyJson (.obj (setDeep O m.field m.value))) →
      ∀ m ∈ innerLoop O maxM cfg f ex cands acc,
        m.bodyText = stringifyJson (.obj (setDeep O m.field m.value)) := by
  intro cands
  induction cands with
  | nil =>
    intro acc hacc m hm
    exact hacc m (by simpa [innerLoop] using hm)
  | cons c cs ih =>
    intro acc hacc m hm
    by_cases hLen : (acc.length : Int) ≥ maxM
    · rw [innerLoop, if_pos hLen] at hm
      exact hacc m hm
    · rw [innerLoop, if_neg hLen] at hm
      cases hres : resolveCandidate ex c with
      | none =>
        rw [hres] at hm
        exact ih acc hacc m hm
      | some value =>
        rw [hres] at hm
        simp only [numNotFinite, Bool.false_eq_true, if_false] at hm
        by_cases hskip : shouldSkipNoop cfg ex value = true
        · rw [if_pos hskip] at hm
          exact ih acc hacc m hm
        · rw [if_neg hskip] at hm
          refine ih _ ?_ m hm
          intro m' hm'
          rcases List.mem_append.mp hm' with h | h
          · exact hacc m' h
          · rcases List.mem_singleton.mp h with rfl
            rfl

/-- Every mutation emitted by the inner loop either was already accumulated or
targets the field being enumerated. -/
theorem innerLoop_field (O : List (String × JSONValue)) (maxM : Int)
    (cfg : ScanConfig) (f : String) (ex : Option JSONValue) :
    ∀ (cands : List ValueCandidate) (acc : List Mutation),
      ∀ m ∈ innerLoop O maxM cfg f ex cands acc, m ∈ acc ∨ m.field = f := by
  intro cands
  induction cands with
  | nil =>
    intro acc m hm
    exact Or.inl (by simpa [innerLoop] using hm)
  | cons c cs ih =>
    intro acc m hm
    by_cases hLen : (acc.length : Int) ≥ maxM
    · rw [innerLoop, if_pos hLen] at hm
      exact Or.inl hm
    · rw [innerLoop, if_neg hLen] at hm
      cases hres : resolveCandidate ex c with
      | none =>
        rw [hres] at hm
        exact ih acc m hm
      | some value =>
        rw [hres] at hm
        simp only [numNotFinite, Bool.false_eq_true, if_false] at hm
        by_cases hskip : shouldSkipNoop cfg ex value = true
        · rw [if_pos hskip] at hm
          exact ih acc m hm
        · rw [if_neg hskip] at hm
          rcases ih _ m hm with h | h
          · rcases List.mem_append.mp h with h2 | h2
            · exact Or.inl h2
            · rcases List.mem_singleton.mp h2 with rfl
              exact Or.inr rfl
          · exact Or.inr h

/-- Outer-loop lifting of `innerLoop_shape`. -/
theorem outerLoop_shape (O : List (String × JSONValue)) (maxM : Int)
    (cfg : ScanConfig) (vcs : List ValueCandidate) :
    ∀ (fields : List String) (acc : List Mutation),
      (∀ m ∈ acc, m.bodyText = stringifyJson (.obj (setDeep O m.field m.value))) →
      ∀ m ∈ outerLoop O maxM cfg vcs fields acc,
        m.bodyText = stringifyJson (.obj (setDeep O m.field m.value)) := by
  intro fields
  induction fields with
  | nil =>
    intro acc hacc m hm
    exact hacc m (by simpa [outerLoop] using hm)
  | cons f fs ih =>
    intro acc hacc m hm
    by_cases hLen : (acc.length : Int) ≥ maxM
    · rw [outerLoop, if_pos hLen] at hm
      exact hacc m hm
    · rw [outerLoop, if_neg hLen] at hm
      by_cases hskip : (!cfg.mutateExistingFields && objHasKey O f) = true
      · rw [if_pos hskip] at hm
        exact ih acc hacc m hm
      · rw [if_neg hskip] at hm
        exact ih _ (innerLoop_shape O maxM cfg f (objLookup O f) vcs acc hacc) m hm

/-- Claim C1 (amended): every generated mutation whose value is a primitive
has a `bodyText` that is the canonical serialization of a JSON object on
which `get_primitive_deep` at `m.field` stringifies equal to `m.value`.  (The
original claim also covered object/array values from custom entries; see the
counterexample.) -/
theorem claim_C1_amended (O : List (String × JSONValue)) (maxM : Int)
    (cfg : ScanConfig) (m : Mutation) (hm : m ∈ buildMutations O maxM cfg)
    (hv : isPrimitive m.value = true) :
    ∃ mutatedObj : List (String × JSONValue),
      m.bodyText = stringifyJson (.obj mutatedObj) ∧
      safeStringify (getPrimitiveDeep (.obj mutatedObj) m.field) =
        safeStringify (some m.value) := by
  refine ⟨setDeep O m.field m.value, ?_, ?_⟩
  · exact outerLoop_shape O maxM cfg (valueCandidatesWithFallback cfg)
      (buildCandidateFields cfg) [] (by simp) m hm
  · rw [getPrimitiveDeep_setDeep _ _ _ hv]

/-- Counterexample to C1 as stated: with baseline `{}` and the single custom
value `"{}"`, the only mutation is `x = {}`; its `bodyText` parses back to
`{"x":{}}`, but `get_primitive_deep` at `x` is `undefined` there, whose
stringification `"undefined"` differs from `safe_stringify({}) = "{}"`. -/
theorem claim_C1_counterexample :
    buildMutations [] 16 cfgC1x =
      [{ field := "x", value := .obj [], bodyText := "\x7b\"x\":\x7b\x7d\x7d" }] ∧
    parseJsonValue "\x7b\"x\":\x7b\x7d\x7d" = .ok (.obj [("x", .obj [])]) ∧
    getPrimitiveDeep (.obj [("x", .obj [])]) "x" = none ∧
    safeStringify (getPrimitiveDeep (.obj [("x", .obj [])]) "x") = "undefined" ∧
    safeStringify (some (JSONValue.obj [])) = "\x7b\x7d" ∧
    ("undefined" : String) ≠ "\x7b\x7d" :=
  ⟨rfl, rfl, rfl, rfl, rfl, by decide⟩

/-- Witness for the amended C1 at the mutation `x = true` over baseline `{}`. -/
theorem claim_C1_witness :
    ({ field := "x", value := .bool true, bodyText := "\x7b\"x\":true\x7d" } : Mutation) ∈
      buildMutations [] 16 cfgC1w ∧
    isPrimitive (JSONValue.bool true) = true ∧
    ∃ mutatedObj : List (String × JSONValue),
      "\x7b\"x\":true\x7d" = stringifyJson (.obj mutatedObj) ∧
      safeStringify (getPrimitiveDeep (.obj mutatedObj) "x") =
        safeStringify (some (JSONValue.bool true)) :=
  ⟨by rw [show buildMutations [] 16 cfgC1w =
        [{ field := "x", value := .bool true, bodyText := "\x7b\"x\":true\x7d" }] from rfl]
      exact List.mem_singleton.mpr rfl,
   rfl,
   claim_C1_amended [] 16 cfgC1w
     { field := "x", value := .bool true, bodyText := "\x7b\"x\":true\x7d" }
     (by rw [show buildMutations [] 16 cfgC1w =
           [{ field := "x", value := .bool true, bodyText := "\x7b\"x\":true\x7d" }] from rfl]
         exact List.mem_singleton.mpr rfl)
     rfl⟩

/-- Outer-loop invariant for C4: with `mutateExistingFields` off, every field
reaching the inner loop is absent from the baseline object. -/
theorem outerLoop_notExisting (O : List (String × JSONValue)) (maxM : Int)
    (cfg : ScanConfig) (vcs : List ValueCandidate)
    (hmut : cfg.mutateExistingFields = false) :
    ∀ (fields : List String) (acc : List Mutation),
      (∀ m ∈ acc, objHasKey O m.field = false) →
      ∀ m ∈ outerLoop O maxM cfg vcs fields acc, objHasKey O m.field = false := by
  intro fields
  induction fields with
  | nil =>
    intro acc hacc m hm
    exact hacc m (by simpa [outerLoop] using hm)
  | cons f fs ih =>
    intro acc hacc m hm
    by_cases hLen : (acc.length : Int) ≥ maxM
    · rw [outerLoop, if_pos hLen] at hm
      exact hacc m hm
    · rw [outerLoop, if_neg hLen] at hm
      by_cases hkey : objHasKey O f = true
      · rw [if_pos (by simp [hmut, hkey])] at hm
        exact ih acc hacc m hm
      · rw [if_neg (by simp [hmut, hkey])] at hm
        refine ih _ ?_ m hm
        intro m' hm'
        rcases innerLoop_field O maxM cfg f (objLookup O f) vcs acc m' hm' with h | h
        · exact hacc m' h
        · rw [h]
          exact Bool.not_eq_true _ ▸ hkey

/-- Claim C4: when `mutateExistingFields` is false, no emitted mutation
targets an own key of the baseline object. -/
theorem claim_C4 (O : List (String × JSONValue)) (maxM : Int) (cfg : ScanConfig)
    (hmut : cfg.mutateExistingFields = false) :
    ∀ m ∈ buildMutations O maxM cfg, objHasKey O m.field = false := by
  intro m hm
  exact outerLoop_notExisting O maxM cfg (valueCandidatesWithFallback cfg) hmut
    (buildCandidateFields cfg) [] (by simp) m hm

/-- Witness for C4: with baseline `{"plan": "free"}` and the single candidate
field `x`, the emitted mutation targets `x`, which is not an own key of the
baseline. -/
theorem claim_C4_witness :
    cfgC1w.mutateExistingFields = false ∧
    ({ field := "x", value := .bool true, bodyText := "\x7b\"plan\":\"free\",\"x\":true\x7d" } : Mutation) ∈
      buildMutations [("plan", .str "free")] 16 cfgC1w ∧
    objHasKey [("plan", .str "free")] "x" = false :=
  ⟨rfl,
   by rw [show buildMutations [("plan", .str "free")] 16 cfgC1w =
        [{ field := "x", value := .bool true,
           bodyText := "\x7b\"plan\":\"free\",\"x\":true\x7d" }] from rfl]
      exact List.mem_singleton.mpr rfl,
   claim_C4 [("plan", .str "free")] 16 cfgC1w rfl _
     (by rw [show buildMutations [("plan", .str "free")] 16 cfgC1w =
           [{ field := "x", value := .bool true,
              bodyText := "\x7b\"plan\":\"free\",\"x\":true\x7d" }] from rfl]
         exact List.mem_singleton.mpr rfl)⟩

/-- A `"null"` custom value contributes `Fixed(undefined)` to the candidate
list. -/
theorem customCands_null_mem :
    ∀ (l : List String) (s : String), s ∈ l → jsTrim s = "null" →
      ValueCandidate.Fixed none ∈ customCands l := by
  intro l
  induction l with
  | nil => intro s hs _; cases hs
  | cons a t ih =>
    intro s hs ht
    rcases List.mem_cons.mp hs with rfl | hmem
    · have : customCands (s :: t) = ValueCandidate.Fixed none :: customCands t := by
        simp only [customCands, ht]
        rfl
      rw [this]
      exact List.mem_cons_self _ _
    · have h := ih s hmem ht
      rw [customCands]
      split
      · exact h
      · exact List.mem_cons_of_mem _ h

/-- The inner loop skips a lone `Fixed(undefined)` candidate: resolution
yields `undefined` and the `value === undefined` check fires. -/
theorem innerLoop_fixedNone (O : List (String × JSONValue)) (maxM : Int)
    (cfg : ScanConfig) (f : String) (ex : Option JSONValue) (acc : List Mutation) :
    innerLoop O maxM cfg f ex [ValueCandidate.Fixed none] acc = acc := by
  rw [innerLoop]
  split <;> rfl

theorem outerLoop_fixedNone (O : List (String × JSONValue)) (maxM : Int)
    (cfg : ScanConfig) :
    ∀ (fields : List String) (acc : List Mutation),
      outerLoop O maxM cfg [ValueCandidate.Fixed none] fields acc = acc := by
  intro fields
  induction fields with
  | nil => intro acc; rfl
  | cons f fs ih =>
    intro acc
    rw [outerLoop]
    split
    · rfl
    · split
      · exact ih acc
      · rw [innerLoop_fixedNone]
        exact ih acc

/-- Claim C2 (amended): a custom value trimming to `"null"` does add a
`Fixed(undefined)` candidate, but the enumeration skips that candidate at
resolution (the `value === undefined` check), so a configuration whose whole
candidate list is that marker emits no mutations at all.  (The original claim
asserted a mutation is emitted for each eligible field; see the
counterexample.) -/
theorem claim_C2_amended (cfg : ScanConfig) (s : String) (hs : s ∈ cfg.customValues)
    (ht : jsTrim s = "null") :
    ValueCandidate.Fixed none ∈ buildValueCandidates cfg ∧
    (∀ (O : List (String × JSONValue)) (maxM : Int),
      valueCandidatesWithFallback cfg = [ValueCandidate.Fixed none] →
      buildMutations O maxM cfg = []) := by
  constructor
  · exact List.mem_append_right _ (customCands_null_mem cfg.customValues s hs ht)
  · intro O maxM hall
    rw [buildMutations, hall, outerLoop_fixedNone]

/-- Counterexample to C2 as stated: the candidate list is exactly
`[Fixed(undefined)]` and the field `x` is eligible (absent from the baseline),
yet zero mutations are emitted. -/
theorem claim_C2_counterexample :
    buildCandidateFields cfgC2x = ["x"] ∧
    objHasKey [] "x" = false ∧
    valueCandidatesWithFallback cfgC2x = [ValueCandidate.Fixed none] ∧
    buildMutations [] 16 cfgC2x = [] :=
  ⟨rfl, rfl, rfl, rfl⟩

/-- Witness for the amended C2 at the concrete `"null"`-only configuration. -/
theorem claim_C2_witness :
    "null" ∈ cfgC2x.customValues ∧ jsTrim "null" = "null" ∧
    valueCandidatesWithFallback cfgC2x = [ValueCandidate.Fixed none] ∧
    ValueCandidate.Fixed none ∈ buildValueCandidates cfgC2x ∧
    buildMutations [] 16 cfgC2x = [] := by
  have h := claim_C2_amended cfgC2x "null" (List.mem_singleton.mpr rfl) rfl
  exact ⟨List.mem_singleton.mpr rfl, rfl, rfl, h.1, h.2 [] 16 rfl⟩

/-! ## Lemmas about `runScan` validation and cancellation -/
theorem runScan_of_preScan_error (env : ScanEnv) (target : ScanTarget)
    (config : ScanConfig) (flag : Bool) (e : String) (tr : List SendEvent)
    (h : preScan env target config = .error (e, tr)) :
    runScan env target config flag =
      { result := .error e, sends := tr, stopFlag := false } := by
  simp [runScan, h]

/-- Claim C6: `runScan` validates the configuration bounds (and the trimmed
target id) before any request is sent: each violation yields exactly the
matching §7 error string, an empty send trace, and no findings. -/
theorem claim_C6 (env : ScanEnv) (target : ScanTarget) (config : ScanConfig)
    (flag : Bool) :
    (config.maxMutations < 1 →
      runScan env target config flag =
        { result := .error "maxMutations must be >= 1", sends := [], stopFlag := false }) ∧
    (¬config.maxMutations < 1 → config.maxMutations > 256 →
      runScan env target config flag =
        { result := .error "maxMutations must be <= 256", sends := [], stopFlag := false }) ∧
    (¬config.maxMutations < 1 → ¬config.maxMutations > 256 →
      config.persistenceDelayMs < 0 →
      runScan env target config flag =
        { result := .error "persistenceDelayMs must be >= 0", sends := [], stopFlag := false }) ∧
    (¬config.maxMutations < 1 → ¬config.maxMutations > 256 →
      ¬config.persistenceDelayMs < 0 → config.persistenceDelayMs > 10000 →
      runScan env target config flag =
        { result := .error "persistenceDelayMs must be <= 10000", sends := [], stopFlag := false }) ∧
    (¬config.maxMutations < 1 → ¬config.maxMutations > 256 →
      ¬config.persistenceDelayMs < 0 → ¬config.persistenceDelayMs > 10000 →
      config.candidateFields.length > 5000 →
      runScan env target config flag =
        { result := .error "candidateFields is too large", sends := [], stopFlag := false }) ∧
    (∀ url method body delayMs, ¬config.maxMutations < 1 → ¬config.maxMutations > 256 →
      ¬config.persistenceDelayMs < 0 → ¬config.persistenceDelayMs > 10000 →
      ¬config.candidateFields.length > 5000 →
      config.verification = .FollowUp url method body delayMs → delayMs < 0 →
      runScan env target config flag =
        { result := .error "verification.delayMs must be >= 0", sends := [], stopFlag := false }) ∧
    (∀ url method body delayMs, ¬config.maxMutations < 1 → ¬config.maxMutations > 256 →
      ¬config.persistenceDelayMs < 0 → ¬config.persistenceDelayMs > 10000 →
      ¬config.candidateFields.length > 5000 →
      config.verification = .FollowUp url method body delayMs →
      ¬delayMs < 0 → delayMs > 10000 →
      runScan env target config flag =
        { result := .error "verification.delayMs must be <= 10000", sends := [], stopFlag := false }) ∧
    (¬config.maxMutations < 1 → ¬config.maxMutations > 256 →
      ¬config.persistenceDelayMs < 0 → ¬config.persistenceDelayMs > 10000 →
      ¬config.candidateFields.length > 5000 →
      verificationDelayError config.verification = none →
      jsTrim target.requestId = "" →
      runScan env target config flag =
        { result := .error "requestId is required", sends := [], stopFlag := false }) := by
  refine ⟨?_, ?_, ?_, ?_, ?_, ?_, ?_, ?_⟩
  · intro h1
    exact runScan_of_preScan_error _ _ _ _ _ _ (by rw [preScan, if_pos h1])
  · intro h1 h2
    exact runScan_of_preScan_error _ _ _ _ _ _
      (by rw [preScan, if_neg h1, if_pos h2])
  · intro h1 h2 h3
    exact runScan_of_preScan_error _ _ _ _ _ _
      (by rw [preScan, if_neg h1, if_neg h2, if_pos h3])
  · intro h1 h2 h3 h4
    exact runScan_of_preScan_error _ _ _ _ _ _
      (by rw [preScan, if_neg h1, if_neg h2, if_neg h3, if_pos h4])
  · intro h1 h2 h3 h4 h5
    exact runScan_of_preScan_error _ _ _ _ _ _
      (by rw [preScan, if_neg h1, if_neg h2, if_neg h3, if_neg h4, if_pos h5])
  · intro url method body delayMs h1 h2 h3 h4 h5 hver hd
    refine runScan_of_preScan_error _ _ _ _ _ _ ?_
    rw [preScan, if_neg h1, if_neg h2, if_neg h3, if_neg h4, if_neg h5]
    have : verificationDelayError config.verification =
        some "verification.delayMs must be >= 0" := by
      rw [hver, verificationDelayError, if_pos hd]
    rw [this]
  · intro url method body delayMs h1 h2 h3 h4 h5 hver hd1 hd2
    refine runScan_of_preScan_error _ _ _ _ _ _ ?_
    rw [preScan, if_neg h1, if_neg h2, if_neg h3, if_neg h4, if_neg h5]
    have : verificationDelayError config.verification =
        some "verification.delayMs must be <= 10000" := by
      rw [hver, verificationDelayError, if_neg hd1, if_pos hd2]
    rw [this]
  · intro h1 h2 h3 h4 h5 hver hid
    refine runScan_of_preScan_error _ _ _ _ _ _ ?_
    rw [preScan, if_neg h1, if_neg h2, if_neg h3, if_neg h4, if_neg h5, hver]
    have : (jsTrim target.requestId).length = 0 := by rw [hid]; rfl
    rw [if_pos this]

/-- Witness for C6: with `maxMutations = 0` the scan ends immediately with the
exact validation string, no send and no finding. -/
theorem claim_C6_witness :
    cfgC6x.maxMutations < 1 ∧
    runScan envQuiet { requestId := "r1" } cfgC6x false =
      { result := .error "maxMutations must be >= 1", sends := [], stopFlag := false } :=
  ⟨by decide,
   (claim_C6 envQuiet { requestId := "r1" } cfgC6x false).1 (by decide)⟩

/-- Claim C10: `runScan` clears the process-wide `shouldStopScan` flag as its
first action, before validation and target resolution: the outcome never
depends on a `stopScan` issued before the call, and even a run that fails
validation returns with the flag cleared. -/
theorem claim_C10 (env : ScanEnv) (target : ScanTarget) (config : ScanConfig)
    (prevFlag : Bool) :
    runScan env target config (stopScan prevFlag) =
      runScan env target config false ∧
    (∀ e sends, preScan env target config = .error (e, sends) →
      (runScan env target config (stopScan prevFlag)).stopFlag = false) := by
  constructor
  · rfl
  · intro e sends h
    simp [runScan, h]

/-- Witness for C10 with a pending stop and a validation-failing
configuration. -/
theorem claim_C10_witness :
    runScan envQuiet { requestId := "r1" } cfgC6x (stopScan false) =
      runScan envQuiet { requestId := "r1" } cfgC6x false ∧
    (runScan envQuiet { requestId := "r1" } cfgC6x (stopScan false)).stopFlag = false :=
  ⟨(claim_C10 envQuiet { requestId := "r1" } cfgC6x false).1,
   (claim_C10 envQuiet { requestId := "r1" } cfgC6x false).2
     "maxMutations must be >= 1" [] rfl⟩

/-! ## Lemmas about `parseRawRequestSpec` -/
theorem strLength_eq_zero (s : String) : s.length = 0 ↔ s = "" := by
  constructor
  · intro h
    cases s with
    | mk data =>
      have hd : data = [] := List.length_eq_zero.mp h
      subst hd
      rfl
  · intro h
    subst h
    rfl

/-- The `flush()` never emits a `Content-Length` or `Transfer-Encoding` pair. -/
theorem flushPair_clean (cur : Option (String × String)) (acc : List (String × String))
    (hacc : ∀ p ∈ acc, jsToLower p.1 ≠ "content-length" ∧
      jsToLower p.1 ≠ "transfer-encoding") :
    ∀ p ∈ flushPair cur acc, jsToLower p.1 ≠ "content-length" ∧
      jsToLower p.1 ≠ "transfer-encoding" := by
  cases cur with
  | none => exact hacc
  | some nv =>
    obtain ⟨n, v⟩ := nv
    intro p hp
    rw [flushPair] at hp
    split at hp
    · exact hacc p hp
    · next hcond =>
      rcases List.mem_append.mp hp with h | h
      · exact hacc p h
      · rcases List.mem_singleton.mp h with rfl
        push_neg at hcond
        exact hcond

/-- The header-folding loop only accumulates clean pairs. -/
theorem foldHeaderLines_clean :
    ∀ (lines : List String) (cur : Option (String × String))
      (acc : List (String × String)),
      (∀ p ∈ acc, jsToLower p.1 ≠ "content-length" ∧
        jsToLower p.1 ≠ "transfer-encoding") →
      ∀ p ∈ foldHeaderLines lines cur acc,
        jsToLower p.1 ≠ "content-length" ∧ jsToLower p.1 ≠ "transfer-encoding" := by
  intro lines
  induction lines with
  | nil =>
    intro cur acc hacc p hp
    exact flushPair_clean cur acc hacc p (by simpa [foldHeaderLines] using hp)
  | cons line rest ih =>
    intro cur acc hacc p hp
    simp only [foldHeaderLines] at hp
    split at hp
    · cases cur with
      | none => exact ih none acc hacc p hp
      | some nv =>
        obtain ⟨n, v⟩ := nv
        exact ih _ acc hacc p hp
    · have hacc2 := flushPair_clean cur acc hacc
      cases hidx : firstIdxOfChar ':' line.toList with
      | none =>
        simp only [hidx] at hp
        exact ih _ _ hacc2 p hp
      | some idx =>
        simp only [hidx] at hp
        by_cases h0 : idx = 0
        · rw [if_pos h0] at hp
          exact ih _ _ hacc2 p hp
        · rw [if_neg h0] at hp
          by_cases hname : (jsTrim (strTake line idx)).length = 0
          · rw [if_pos hname] at hp
            exact ih _ _ hacc2 p hp
          · rw [if_neg hname] at hp
            exact ih _ _ hacc2 p hp

/-- Any outcome of the post-validation tail is one of the two parse errors or
a specification whose headers come from the folding loop with an empty
accumulator. -/
theorem parseRawTail_shape (input : SaveRawRequestInput) (host : String) :
    parseRawTail input host = .error "request is empty" ∨
    parseRawTail input host = .error "invalid request line" ∨
    ∃ url method restLines bodyText,
      parseRawTail input host =
        .ok { url := url, method := method,
              headers := foldHeaderLines restLines none [], body := bodyText } := by
  rw [parseRawTail]
  repeat' split
  · exact Or.inl rfl
  · exact Or.inr (Or.inl rfl)
  · exact Or.inr (Or.inl rfl)
  all_goals exact Or.inr (Or.inr ⟨_, _, _, _, rfl⟩)

/-- Claim C8: `parse_raw` errors with `"host is required"` exactly when the
host trims to empty; with a non-empty host, every port outside `1..=65535`
gives `"port is invalid"`; and a successfully parsed specification never
contains a `Content-Length` or a `Transfer-Encoding` header. -/
theorem claim_C8 (input : SaveRawRequestInput) :
    (parseRawRequestSpec input = .error "host is required" ↔ jsTrim input.host = "") ∧
    (jsTrim input.host ≠ "" → (input.port < 1 ∨ input.port > 65535) →
      parseRawRequestSpec input = .error "port is invalid") ∧
    (∀ spec, parseRawRequestSpec input = .ok spec →
      ∀ p ∈ spec.headers, jsToLower p.1 ≠ "content-length" ∧
        jsToLower p.1 ≠ "transfer-encoding") := by
  refine ⟨⟨?_, ?_⟩, ?_, ?_⟩
  · intro h
    by_contra hne
    have hlen : ¬(jsTrim input.host).length = 0 :=
      fun h0 => hne ((strLength_eq_zero _).mp h0)
    rw [parseRawRequestSpec, if_neg hlen] at h
    by_cases hport : (input.port < 1 ∨ input.port > 65535)
    · rw [if_pos hport] at h
      simp at h
    · rw [if_neg hport] at h
      rcases parseRawTail_shape input (jsTrim input.host) with hs | hs | ⟨u, me, rl, bt, hs⟩ <;>
        rw [hs] at h <;> simp at h
  · intro h
    have hlen : (jsTrim input.host).length = 0 := by rw [h]; rfl
    rw [parseRawRequestSpec, if_pos hlen]
  · intro hne hport
    have hlen : ¬(jsTrim input.host).length = 0 :=
      fun h0 => hne ((strLength_eq_zero _).mp h0)
    rw [parseRawRequestSpec, if_neg hlen, if_pos hport]
  · intro spec h p hp
    rw [parseRawRequestSpec] at h
    by_cases hlen : (jsTrim input.host).length = 0
    · rw [if_pos hlen] at h
      simp at h
    · rw [if_neg hlen] at h
      by_cases hport : (input.port < 1 ∨ input.port > 65535)
      · rw [if_pos hport] at h
        simp at h
      · rw [if_neg hport] at h
        rcases parseRawTail_shape input (jsTrim input.host) with hs | hs | ⟨u, me, rl, bt, hs⟩ <;>
          rw [hs] at h
        · simp at h
        · simp at h
        · rw [Result.ok.injEq] at h
          subst h
          exact foldHeaderLines_clean _ none [] (by simp) p hp

/-- Witness for C8: the concrete raw request parses to a specification whose
headers dropped `Content-Length` and `Transfer-Encoding`; port 0 is rejected;
and an all-whitespace host yields the host error. -/
theorem claim_C8_witness :
    parseRawRequestSpec { inputC8 with host := "  " } = .error "host is required" ∧
    parseRawRequestSpec { inputC8 with port := 0 } = .error "port is invalid" ∧
    parseRawRequestSpec inputC8 = .ok specC8 ∧
    (∀ p ∈ specC8.headers, jsToLower p.1 ≠ "content-length" ∧
      jsToLower p.1 ≠ "transfer-encoding") :=
  ⟨(claim_C8 { inputC8 with host := "  " }).1.mpr rfl,
   (claim_C8 { inputC8 with port := 0 }).2.1 (by decide) (Or.inl (by decide)),
   rfl,
   fun p hp => (claim_C8 inputC8).2.2 specC8 rfl p hp⟩

theorem attachRequest_eq_amended (store : String → Option String) (base : String)
    (f : CreateFindingsInputFinding) :
    attachRequest store base f = attachPerAmendedClaim store base f := by
  rcases f with ⟨field, value, kind, msg, mid, pid, vid⟩
  cases kind <;> cases vid <;> cases pid <;> cases mid <;>
    simp [attachRequest, attachPerAmendedClaim, Option.bind]

/-- Claim C7 (amended): each created issue uses the dedupe key
`<requestId>:<kind>:<field>` and attaches the request selected by kind and id
presence, with the baseline as the in-branch fallback when the lookup fails
(the original claim's fall-through to the mutated request does not happen;
see the counterexample). -/
theorem claim_C7_amended (store : String → Option String) (input : CreateFindingsInput)
    (out : CreateFindingsOutcome) (h : createFindings store input = .ok out) :
    ∃ baselineRequest, store (jsTrim input.requestId) = some baselineRequest ∧
      ∀ j f, input.findings.get? j = some f →
        out.issues.get? j = some
          { title := "Mass Assignment Radar: " ++ f.kind.toStr ++ " " ++ f.field
            description := describeFinding (jsTrim input.requestId) f
            reporter := "Mass Assignment Radar"
            dedupeKey := jsTrim input.requestId ++ ":" ++ f.kind.toStr ++ ":" ++ f.field
            request := attachPerAmendedClaim store baselineRequest f } := by
  rw [createFindings] at h
  split at h
  · simp at h
  · split at h
    · simp at h
    · split at h
      · simp at h
      · cases hs : store (jsTrim input.requestId) with
        | none => rw [hs] at h; simp at h
        | some baselineRequest =>
          rw [hs] at h
          rw [Result.ok.injEq] at h
          refine ⟨baselineRequest, rfl, ?_⟩
          intro j f hj
          rw [← h]
          simp only [List.get?_map, hj, Option.map_some']
          rw [attachRequest_eq_amended]

/-- Counterexample to C7 as stated: a `StateChanged` finding whose
`verifyRequestId` is present but does not resolve, while its
`mutatedRequestId` does resolve.  The claim says the mutated request
(`REQ_MUT`) is attached; the code attaches the baseline request. -/
theorem claim_C7_counterexample :
    storeC7 "vid" = none ∧
    storeC7 "mid" = some "REQ_MUT" ∧
    (issuesOf (createFindings storeC7
        { requestId := "base", findings := [findingC7] })).map
      (fun i => i.request) = ["REQ_BASE"] ∧
    ("REQ_BASE" : String) ≠ "REQ_MUT" :=
  ⟨rfl, rfl, rfl, by decide⟩

/-- Witness for the amended C7 at the counterexample's input. -/
theorem claim_C7_witness :
    ∃ out, createFindings storeC7 { requestId := "base", findings := [findingC7] } = .ok out ∧
    ∃ baselineRequest, storeC7 (jsTrim "base") = some baselineRequest ∧
      ∀ j f, ([findingC7] : List CreateFindingsInputFinding).get? j = some f →
        out.issues.get? j = some
          { title := "Mass Assignment Radar: " ++ f.kind.toStr ++ " " ++ f.field
            description := describeFinding (jsTrim "base") f
            reporter := "Mass Assignment Radar"
            dedupeKey := jsTrim "base" ++ ":" ++ f.kind.toStr ++ ":" ++ f.field
            request := attachPerAmendedClaim storeC7 baselineRequest f } := by
  refine ⟨{ created := 1,
            issues := [{ title := "Mass Assignment Radar: StateChanged x"
                         description := describeFinding "base" findingC7
                         reporter := "Mass Assignment Radar"
                         dedupeKey := "base:StateChanged:x"
                         request := "REQ_BASE" }] }, rfl, ?_⟩
  exact claim_C7_amended storeC7 { requestId := "base", findings := [findingC7] } _ rfl

/-- If a list made of a clean part followed by anything is split at an element
satisfying `P`, the clean part is an initial segment of the left part of the
split. -/
theorem clean_prefix_split {α : Type} (P : α → Prop) :
    ∀ (pre post c1 c2 : List α) (f : α),
      pre ++ post = c1 ++ f :: c2 → (∀ y ∈ pre, ¬P y) → P f →
      ∃ d1, c1 = pre ++ d1 := by
  intro pre
  induction pre with
  | nil => intro post c1 c2 f _ _ _; exact ⟨c1, rfl⟩
  | cons a pre' ih =>
    intro post c1 c2 f h hclean hf
    cases c1 with
    | nil =>
      simp only [List.nil_append, List.cons_append, List.cons.injEq] at h
      obtain ⟨h1, -⟩ := h
      subst h1
      exact absurd hf (hclean _ (List.mem_cons_self _ _))
    | cons b c1' =>
      simp only [List.cons_append, List.cons.injEq] at h
      obtain ⟨rfl, h2⟩ := h
      obtain ⟨d1, hd⟩ := ih post c1' c2 f h2
        (fun y hy => hclean y (List.mem_cons_of_mem _ hy)) hf
      exact ⟨d1, by rw [hd]; rfl⟩

theorem codeDiffStep_kinds (ctx : LoopCtx) (m : Mutation) (mutatedRequestId : String)
    (mutatedResponse : Resp) :
    ∀ g ∈ codeDiffStep ctx m mutatedRequestId mutatedResponse,
      g.kind = FindingKind.CodeChanged := by
  intro g hg
  simp only [codeDiffStep] at hg
  split at hg
  · split at hg
    · rcases List.mem_singleton.mp hg with rfl
      rfl
    · simp at hg
  · simp at hg

theorem verifyDiffStep_kinds (env : ScanEnv) (config : ScanConfig) (ctx : LoopCtx)
    (i : Nat) (m : Mutation) (mutatedRequestId : String) :
    ∀ g ∈ (verifyDiffStep env config ctx i m mutatedRequestId).1,
      g.kind = FindingKind.StateChanged := by
  intro g hg
  simp only [verifyDiffStep] at hg
  repeat' split at hg
  all_goals
    first
    | (rcases List.mem_singleton.mp hg with rfl; rfl)
    | simp at hg

theorem bodyDiffStep_shape (env : ScanEnv) (config : ScanConfig) (ctx : LoopCtx)
    (i : Nat) (m : Mutation) (mutatedRequestId : String) (mutatedResponse : Resp) :
    (bodyDiffStep env config ctx i m mutatedRequestId mutatedResponse).1 = [] ∨
    (∃ g, (bodyDiffStep env config ctx i m mutatedRequestId mutatedResponse).1 = [g] ∧
      g.kind = FindingKind.NonJsonResponse) ∨
    (∃ g, (bodyDiffStep env config ctx i m mutatedRequestId mutatedResponse).1 = [g] ∧
      g.kind = FindingKind.Reflected ∧ g.field = m.field ∧
      g.value = safeStringify (some m.value)) ∨
    (∃ g h, (bodyDiffStep env config ctx i m mutatedRequestId mutatedResponse).1 = [g, h] ∧
      g.kind = FindingKind.Reflected ∧ g.field = m.field ∧
      g.value = safeStringify (some m.value) ∧
      h.kind = FindingKind.Persisted ∧ h.field = m.field ∧
      h.value = safeStringify (some m.value) ∧
      config.confirmPersistence = true ∧
      persistedReplayConfirmed env i m.field (safeStringify (some m.value))) := by
  simp only [bodyDiffStep]
  cases hmb : mutatedResponse.body with
  | none => exact Or.inl rfl
  | some mutatedText =>
    dsimp only
    cases hparse : parseJsonValue mutatedText with
    | error e => exact Or.inr (Or.inl ⟨_, rfl, rfl⟩)
    | ok mutatedJson =>
      dsimp only
      cases htop : getPrimitiveDeep mutatedJson m.field with
      | none => exact Or.inl rfl
      | some mt =>
        dsimp only
        by_cases heq : safeStringify (some mt) = safeStringify (some m.value)
        · rw [if_pos heq]
          by_cases hconf : config.confirmPersistence = true
          · rw [if_pos hconf]
            cases hps : env.persistedSend i with
            | none => exact Or.inr (Or.inr (Or.inl ⟨_, rfl, rfl, rfl, rfl⟩))
            | some persistedSent =>
              dsimp only
              cases hpt : persistedSent.response.bind (fun r => r.body) with
              | none => exact Or.inr (Or.inr (Or.inl ⟨_, rfl, rfl, rfl, rfl⟩))
              | some pt =>
                dsimp only
                cases hpp : parseJsonValue pt with
                | error e => exact Or.inr (Or.inr (Or.inl ⟨_, rfl, rfl, rfl, rfl⟩))
                | ok persistedJson =>
                  dsimp only
                  cases hptop : getPrimitiveDeep persistedJson m.field with
                  | none => exact Or.inr (Or.inr (Or.inl ⟨_, rfl, rfl, rfl, rfl⟩))
                  | some persistedTop =>
                    dsimp only
                    by_cases heq2 :
                        safeStringify (some persistedTop) = safeStringify (some m.value)
                    · rw [if_pos heq2]
                      refine Or.inr (Or.inr (Or.inr
                        ⟨_, _, rfl, rfl, rfl, rfl, rfl, rfl, rfl, hconf, ?_⟩))
                      obtain ⟨pr, hpr, hprb⟩ := Option.bind_eq_some.mp hpt
                      exact ⟨persistedSent, pr, pt, persistedJson, persistedTop,
                        hps, hpr, hprb, hpp, hptop, heq2⟩
                    · rw [if_neg heq2]
                      exact Or.inr (Or.inr (Or.inl ⟨_, rfl, rfl, rfl, rfl⟩))
          · rw [if_neg hconf]
            exact Or.inr (Or.inr (Or.inl ⟨_, rfl, rfl, rfl, rfl⟩))
        · rw [if_neg heq]
          exact Or.inl rfl

/-- Within one mutation's classification chunk, a `Persisted` finding implies
`confirmPersistence`, an earlier matching `Reflected` finding in the same
chunk, agreement with the mutation, and the confirmed persisted replay. -/
theorem classify_chunkProp (env : ScanEnv) (config : ScanConfig) (ctx : LoopCtx)
    (i : Nat) (m : Mutation) (mutatedRequestId : String) (mutatedResponse : Resp) :
    ∀ c1 f c2,
      (classifyMutation env config ctx i m mutatedRequestId mutatedResponse).1 =
        c1 ++ f :: c2 →
      f.kind = FindingKind.Persisted →
      config.confirmPersistence = true ∧
      (∃ r ∈ c1, r.kind = FindingKind.Reflected ∧ r.field = f.field ∧
        r.value = f.value) ∧
      m.field = f.field ∧ safeStringify (some m.value) = f.value ∧
      persistedReplayConfirmed env i f.field f.value := by
  intro c1 f c2 hsplit hf
  simp only [classifyMutation] at hsplit
  have hftot : f ∈
      codeDiffStep ctx m mutatedRequestId mutatedResponse ++
        (verifyDiffStep env config ctx i m mutatedRequestId).1 ++
        (bodyDiffStep env config ctx i m mutatedRequestId mutatedResponse).1 := by
    rw [hsplit]
    exact List.mem_append_right _ (List.mem_cons_self _ _)
  rcases bodyDiffStep_shape env config ctx i m mutatedRequestId mutatedResponse with
    hb | ⟨g, hb, hk⟩ | ⟨g, hb, hk, hfld, hval⟩ |
    ⟨g, h, hb, hgk, hgf, hgv, hhk, hhf, hhv, hconf, hrep⟩
  · rw [hb] at hftot
    rcases List.mem_append.mp hftot with hin | hin
    · rcases List.mem_append.mp hin with hin2 | hin2
      · rw [codeDiffStep_kinds ctx m mutatedRequestId mutatedResponse f hin2] at hf
        cases hf
      · rw [verifyDiffStep_kinds env config ctx i m mutatedRequestId f hin2] at hf
        cases hf
    · simp at hin
  · rw [hb] at hftot
    rcases List.mem_append.mp hftot with hin | hin
    · rcases List.mem_append.mp hin with hin2 | hin2
      · rw [codeDiffStep_kinds ctx m mutatedRequestId mutatedResponse f hin2] at hf
        cases hf
      · rw [verifyDiffStep_kinds env config ctx i m mutatedRequestId f hin2] at hf
        cases hf
    · rcases List.mem_singleton.mp hin with rfl
      rw [hk] at hf
      cases hf
  · rw [hb] at hftot
    rcases List.mem_append.mp hftot with hin | hin
    · rcases List.mem_append.mp hin with hin2 | hin2
      · rw [codeDiffStep_kinds ctx m mutatedRequestId mutatedResponse f hin2] at hf
        cases hf
      · rw [verifyDiffStep_kinds env config ctx i m mutatedRequestId f hin2] at hf
        cases hf
    · rcases List.mem_singleton.mp hin with rfl
      rw [hk] at hf
      cases hf
  · rw [hb] at hsplit hftot
    have hclean : ∀ y ∈
        (codeDiffStep ctx m mutatedRequestId mutatedResponse ++
          (verifyDiffStep env config ctx i m mutatedRequestId).1) ++ [g],
        ¬y.kind = FindingKind.Persisted := by
      intro y hy hyk
      rcases List.mem_append.mp hy with hin | hin
      · rcases List.mem_append.mp hin with hin2 | hin2
        · rw [codeDiffStep_kinds ctx m mutatedRequestId mutatedResponse y hin2] at hyk
          cases hyk
        · rw [verifyDiffStep_kinds env config ctx i m mutatedRequestId y hin2] at hyk
          cases hyk
      · rcases List.mem_singleton.mp hin with rfl
        rw [hgk] at hyk
        cases hyk
    have hfh : f = h := by
      rcases List.mem_append.mp hftot with hin | hin
      · rcases List.mem_append.mp hin with hin2 | hin2
        · rw [codeDiffStep_kinds ctx m mutatedRequestId mutatedResponse f hin2] at hf
          cases hf
        · rw [verifyDiffStep_kinds env config ctx i m mutatedRequestId f hin2] at hf
          cases hf
      · rcases List.mem_cons.mp hin with rfl | hin2
        · rw [hgk] at hf
          cases hf
        · exact List.mem_singleton.mp hin2
    have hre :
        ((codeDiffStep ctx m mutatedRequestId mutatedResponse ++
          (verifyDiffStep env config ctx i m mutatedRequestId).1) ++ [g]) ++ [h] =
        c1 ++ f :: c2 := by
      rw [← hsplit]
      simp
    obtain ⟨d1, hd1⟩ := clean_prefix_split (fun y => y.kind = FindingKind.Persisted)
      _ [h] c1 c2 f hre hclean hf
    subst hfh
    refine ⟨hconf, ⟨g, ?_, hgk, by rw [hgf, hhf], by rw [hgv, hhv]⟩,
      hhf.symm, hhv.symm, ?_⟩
    · rw [hd1]
      exact List.mem_append_left _ (List.mem_append_right _ (List.mem_singleton.mpr rfl))
    · rw [hhf, hhv]
      exact hrep

theorem splitProp_append_single (env : ScanEnv) (config : ScanConfig) (ctx : LoopCtx)
    (A : List ScanFinding) (g : ScanFinding)
    (hA : persistedSplitProp env config ctx A)
    (hg : ¬g.kind = FindingKind.Persisted) :
    persistedSplitProp env config ctx (A ++ [g]) := by
  intro l1 f l2 hsplit hf
  rcases List.eq_nil_or_concat l2 with rfl | ⟨L, y, rfl⟩
  · obtain ⟨hA1, hgf⟩ := List.append_inj' hsplit rfl
    rcases List.cons.injEq g [] f [] ▸ hgf with h2
    obtain ⟨rfl, -⟩ := List.cons.inj hgf
    exact absurd hf hg
  · have hre : A ++ [g] = (l1 ++ f :: L) ++ [y] := by
      rw [hsplit]
      simp
    obtain ⟨hA1, hgy⟩ := List.append_inj' hre rfl
    exact hA l1 f L hA1 hf

theorem splitProp_append_chunk (env : ScanEnv) (config : ScanConfig) (ctx : LoopCtx)
    (i : Nat) (m : Mutation) (mutatedRequestId : String) (mutatedResponse : Resp)
    (A : List ScanFinding)
    (hA : persistedSplitProp env config ctx A)
    (hidx : ctx.mutations.get? i = some m) :
    persistedSplitProp env config ctx
      (A ++ (classifyMutation env config ctx i m mutatedRequestId mutatedResponse).1) := by
  intro l1 f l2 hsplit hf
  rcases List.append_eq_append_iff.mp hsplit with ⟨a', ha1, ha2⟩ | ⟨c', hc1, hc2⟩
  · -- l1 = A ++ a' and the chunk splits at f
    obtain ⟨hconf, ⟨r, hr, hrk, hrf, hrv⟩, hmf, hmv, hrep⟩ :=
      classify_chunkProp env config ctx i m mutatedRequestId mutatedResponse
        a' f l2 ha2 hf
    refine ⟨hconf, ⟨r, ?_, hrk, hrf, hrv⟩, ⟨i, m, hidx, hmf, hmv, hrep⟩⟩
    rw [ha1]
    exact List.mem_append_right _ hr
  · -- A = l1 ++ c' and f :: l2 = c' ++ chunk
    cases c' with
    | nil =>
      simp only [List.nil_append] at hc2
      obtain ⟨hconf, ⟨r, hr, -⟩, -⟩ :=
        classify_chunkProp env config ctx i m mutatedRequestId mutatedResponse
          [] f l2 hc2.symm hf
      exact absurd hr (List.not_mem_nil r)
    | cons y t =>
      simp only [List.cons_append, List.cons.injEq] at hc2
      obtain ⟨rfl, -⟩ := hc2
      exact hA l1 f t (by rw [hc1]) hf

/-- The mutation loop preserves the C5 property. -/
theorem scanLoop_splitProp (env : ScanEnv) (config : ScanConfig) (ctx : LoopCtx) :
    ∀ (muts : List Mutation) (i0 : Nat) (flag : Bool) (acc : List ScanFinding)
      (sends : List SendEvent),
      persistedSplitProp env config ctx acc →
      (∀ k mm, muts.get? k = some mm → ctx.mutations.get? (i0 + k) = some mm) →
      persistedSplitProp env config ctx
        ((scanLoop env config ctx muts i0 flag acc sends).2.1) := by
  intro muts
  induction muts with
  | nil =>
    intro i0 flag acc sends hacc _
    simpa [scanLoop] using hacc
  | cons m rest ih =>
    intro i0 flag acc sends hacc hidx
    have hidx0 : ctx.mutations.get? i0 = some m := by
      have := hidx 0 m rfl
      rwa [Nat.add_zero] at this
    have hidxRest : ∀ k mm, rest.get? k = some mm →
        ctx.mutations.get? (i0 + 1 + k) = some mm := by
      intro k mm hk
      have := hidx (k + 1) mm (by simpa using hk)
      rwa [show i0 + (k + 1) = i0 + 1 + k by omega] at this
    simp only [scanLoop]
    split
    · exact hacc
    · cases hsend : env.mutatedSend i0 with
      | none =>
        exact ih (i0 + 1) _ _ _
          (splitProp_append_single env config ctx acc (noResponseFinding ctx m) hacc
            (by intro hco; simp [noResponseFinding, makeFinding] at hco))
          hidxRest
      | some sent =>
        exact ih (i0 + 1) _ _ _
          (splitProp_append_chunk env config ctx i0 m sent.1 sent.2 acc hacc hidx0)
          hidxRest

/-- Claim C5: a `Persisted` finding occurs in a scan result only when
`confirmPersistence` is on, a matching `Reflected` finding was emitted earlier
in the same scan for the same mutation, and `get_primitive_deep` of the parsed
persisted-replay response at the field stringifies equal to the injected
value. -/
theorem claim_C5 (env : ScanEnv) (target : ScanTarget) (config : ScanConfig)
    (flag : Bool) (l1 : List ScanFinding) (f : ScanFinding) (l2 : List ScanFinding)
    (hsplit : resultFindings (runScan env target config flag) = l1 ++ f :: l2)
    (hf : f.kind = FindingKind.Persisted) :
    config.confirmPersistence = true ∧
    (∃ r ∈ l1, r.kind = FindingKind.Reflected ∧ r.field = f.field ∧
      r.value = f.value) ∧
    (∃ ctx, preScan env target config = .ok ctx ∧
      ∃ i m, ctx.mutations.get? i = some m ∧ m.field = f.field ∧
        safeStringify (some m.value) = f.value ∧
        persistedReplayConfirmed env i f.field f.value) := by
  cases hpre : preScan env target config with
  | error e =>
    obtain ⟨e1, tr⟩ := e
    rw [resultFindings, runScan_of_preScan_error env target config flag e1 tr hpre]
      at hsplit
    simp at hsplit
  | ok ctx =>
    have hfind : resultFindings (runScan env target config flag) =
        (scanLoop env config ctx ctx.mutations 0 false [] ctx.preSends).2.1 := by
      simp [runScan, hpre, resultFindings]
    rw [hfind] at hsplit
    obtain ⟨hconf, hr, him⟩ :=
      scanLoop_splitProp env config ctx ctx.mutations 0 false [] ctx.preSends
        (by intro l1' f' l2' hs _; exact absurd hs (by simp))
        (by intro k mm hk; simpa using hk)
        l1 f l2 hsplit hf
    exact ⟨hconf, hr, ctx, rfl, him⟩

/-- Witness for C5 at a concrete scan producing `[Reflected, Persisted]`. -/
theorem claim_C5_witness :
    cfgC5w.confirmPersistence = true ∧
    (∃ r ∈ [reflC5], r.kind = FindingKind.Reflected ∧ r.field = persC5.field ∧
      r.value = persC5.value) ∧
    (∃ ctx, preScan envC5w { requestId := "base" } cfgC5w = .ok ctx ∧
      ∃ i m, ctx.mutations.get? i = some m ∧ m.field = persC5.field ∧
        safeStringify (some m.value) = persC5.value ∧
        persistedReplayConfirmed envC5w i persC5.field persC5.value) :=
  claim_C5 envC5w { requestId := "base" } cfgC5w false [reflC5] persC5 []
    (by rfl) rfl

/-! ## Claim C9: the follow-up verification baseline is fixed -/
/-- Findings already accumulated survive the rest of the loop. -/
theorem scanLoop_findings_mono (env : ScanEnv) (config : ScanConfig) (ctx : LoopCtx) :
    ∀ (muts : List Mutation) (i0 : Nat) (flag : Bool) (acc : List ScanFinding)
      (sends : List SendEvent) (f : ScanFinding), f ∈ acc →
      f ∈ (scanLoop env config ctx muts i0 flag acc sends).2.1 := by
  intro muts
  induction muts with
  | nil =>
    intro i0 flag acc sends f hf
    simpa [scanLoop] using hf
  | cons m rest ih =>
    intro i0 flag acc sends f hf
    simp only [scanLoop]
    split
    · exact hf
    · cases hsend : env.mutatedSend i0 with
      | none => exact ih _ _ _ _ f (List.mem_append_left _ hf)
      | some sent => exact ih _ _ _ _ f (List.mem_append_left _ hf)

/-- When verification is active with a retained baseline object and the
follow-up response for mutation `i` parses to an object whose non-noisy diff
against that baseline is non-empty, the verify step emits exactly one
`StateChanged` finding for the mutation. -/
theorem verifyDiffStep_emits (env : ScanEnv) (config : ScanConfig) (ctx : LoopCtx)
    (i : Nat) (m : Mutation) (mutatedRequestId : String)
    (url method body : String) (delayMs : Int)
    (B : List (String × JSONValue)) (u vbid : String) (vs : SentR) (vr : Resp)
    (vtext : String) (vv : List (String × JSONValue))
    (hver : config.verification = .FollowUp url method body delayMs)
    (hvb : ctx.verifyBaselineJson = some B)
    (hvu : ctx.verifyUrlResolved = some u)
    (hvi : ctx.verifyBaselineRequestId = some vbid)
    (hsent : env.verifyMutSend i = some vs)
    (hresp : vs.response = some vr)
    (hbody : vr.body = some vtext)
    (hparse : parseJsonValue vtext = .ok (.obj vv))
    (hchanged : (computeChanged (getAllPrimitives (.obj B) "")
      (getAllPrimitives (.obj vv) "")).length > 0) :
    ∃ fd, (verifyDiffStep env config ctx i m mutatedRequestId).1 = [fd] ∧
      fd.kind = FindingKind.StateChanged ∧ fd.field = m.field ∧
      fd.value = safeStringify (some m.value) ∧
      fd.verifyBaselineRequestId = some vbid := by
  simp only [verifyDiffStep, hver, hvb, hvu, hvi, hsent, hresp, hbody, hparse]
  rw [if_pos hchanged]
  exact ⟨_, rfl, rfl, rfl, rfl, rfl⟩

/-- If the loop reaches iteration `k` (no stop signal at or before it), the
mutated send succeeds there, and the verify step emits a finding satisfying
`P`, then the loop's findings contain a finding satisfying `P`. -/
theorem scanLoop_reaches (env : ScanEnv) (config : ScanConfig) (ctx : LoopCtx)
    (P : ScanFinding → Prop) :
    ∀ (muts : List Mutation) (i0 : Nat) (acc : List ScanFinding)
      (sends : List SendEvent) (k : Nat) (m : Mutation) (rid : String) (resp : Resp),
      muts.get? k = some m →
      (∀ j, j ≤ k → env.stopSignal (i0 + j) = false) →
      env.mutatedSend (i0 + k) = some (rid, resp) →
      (∃ fd ∈ (verifyDiffStep env config ctx (i0 + k) m rid).1, P fd) →
      ∃ fd ∈ (scanLoop env config ctx muts i0 false acc sends).2.1, P fd := by
  intro muts
  induction muts with
  | nil =>
    intro i0 acc sends k m rid resp hk
    simp at hk
  | cons m0 rest ih =>
    intro i0 acc sends k m rid resp hk hstop hsend hemit
    have hs0 : env.stopSignal i0 = false := by
      have := hstop 0 (Nat.zero_le _)
      rwa [Nat.add_zero] at this
    simp only [scanLoop, hs0, Bool.or_false, if_false]
    cases k with
    | zero =>
      have hm : m0 = m := by simpa using hk
      subst hm
      rw [Nat.add_zero] at hsend hemit
      rw [hsend]
      obtain ⟨fd, hfd, hP⟩ := hemit
      refine ⟨fd, scanLoop_findings_mono env config ctx rest (i0 + 1) _ _ _ fd ?_, hP⟩
      refine List.mem_append_right _ ?_
      simp only [classifyMutation]
      exact List.mem_append_left _ (List.mem_append_right _ hfd)
    | succ j =>
      have hk' : rest.get? j = some m := by simpa using hk
      have hstop' : ∀ j2, j2 ≤ j → env.stopSignal (i0 + 1 + j2) = false := by
        intro j2 hj2
        have := hstop (j2 + 1) (by omega)
        rwa [show i0 + (j2 + 1) = i0 + 1 + j2 by omega] at this
      have hsend' : env.mutatedSend (i0 + 1 + j) = some (rid, resp) := by
        rwa [show i0 + 1 + j = i0 + (j + 1) by omega]
      have hemit' : ∃ fd ∈ (verifyDiffStep env config ctx (i0 + 1 + j) m rid).1, P fd := by
        rwa [show i0 + 1 + j = i0 + (j + 1) by omega]
      cases hsend0 : env.mutatedSend i0 with
      | none => exact ih (i0 + 1) _ _ j m rid resp hk' hstop' hsend' hemit'
      | some sent => exact ih (i0 + 1) _ _ j m rid resp hk' hstop' hsend' hemit'

/-- Claim C9: the follow-up verification baseline is captured once before the
mutation loop and never updated; every mutation's `StateChanged` diff compares
that mutation's fresh follow-up response against the initial baseline
(`ctx.verifyBaselineJson`), so every mutation whose follow-up response still
shows a changed non-noisy value — in particular every mutation after one that
durably changed the verified state — produces a `StateChanged` finding. -/
theorem claim_C9 (env : ScanEnv) (target : ScanTarget) (config : ScanConfig)
    (flag : Bool) (url method body : String) (delayMs : Int) (ctx : LoopCtx)
    (B : List (String × JSONValue)) (u vbid : String) (i : Nat) (m : Mutation)
    (rid : String) (resp : Resp) (vs : SentR) (vr : Resp) (vtext : String)
    (vv : List (String × JSONValue))
    (hpre : preScan env target config = .ok ctx)
    (hver : config.verification = .FollowUp url method body delayMs)
    (hvb : ctx.verifyBaselineJson = some B)
    (hvu : ctx.verifyUrlResolved = some u)
    (hvi : ctx.verifyBaselineRequestId = some vbid)
    (hm : ctx.mutations.get? i = some m)
    (hstop : ∀ j, j ≤ i → env.stopSignal j = false)
    (hsend : env.mutatedSend i = some (rid, resp))
    (hvs : env.verifyMutSend i = some vs)
    (hvr : vs.response = some vr)
    (hvt : vr.body = some vtext)
    (hparse : parseJsonValue vtext = .ok (.obj vv))
    (hchanged : (computeChanged (getAllPrimitives (.obj B) "")
      (getAllPrimitives (.obj vv) "")).length > 0) :
    ∃ fd ∈ resultFindings (runScan env target config flag),
      fd.kind = FindingKind.StateChanged ∧ fd.field = m.field ∧
      fd.value = safeStringify (some m.value) ∧
      fd.verifyBaselineRequestId = some vbid := by
  have hfind : resultFindings (runScan env target config flag) =
      (scanLoop env config ctx ctx.mutations 0 false [] ctx.preSends).2.1 := by
    simp [runScan, hpre, resultFindings]
  rw [hfind]
  obtain ⟨fd, hfd, hk, hf, hv2, hvb2⟩ :=
    verifyDiffStep_emits env config ctx i m rid url method body delayMs B u vbid
      vs vr vtext vv hver hvb hvu hvi hvs hvr hvt hparse hchanged
  refine scanLoop_reaches env config ctx
    (fun fd => fd.kind = FindingKind.StateChanged ∧ fd.field = m.field ∧
      fd.value = safeStringify (some m.value) ∧
      fd.verifyBaselineRequestId = some vbid)
    ctx.mutations 0 [] ctx.preSends i m rid resp hm
    (by intro j hj; rw [Nat.zero_add]; exact hstop j hj)
    (by rw [Nat.zero_add]; exact hsend)
    ?_
  rw [Nat.zero_add, hfd]
  exact ⟨fd, List.mem_singleton.mpr rfl, hk, hf, hv2, hvb2⟩

/-- Witness for C9: the verify baseline `{"plan":"free"}` is captured before
the loop; mutation 0's follow-up returns `{"plan":"pro"}`, and the scan emits
the `StateChanged` finding. -/
theorem claim_C9_witness :
    ∃ fd ∈ resultFindings (runScan envC9w { requestId := "base" } cfgC9w false),
      fd.kind = FindingKind.StateChanged ∧ fd.field = "x" ∧
      fd.value = safeStringify (some (JSONValue.bool true)) ∧
      fd.verifyBaselineRequestId = some "V0" :=
  claim_C9 envC9w { requestId := "base" } cfgC9w false "/me" "GET" "" 0 ctxC9w
    [("plan", JSONValue.str "free")] "http://h:1/me" "V0" 0
    { field := "x", value := JSONValue.bool true,
      bodyText := "\x7b\"a\":1,\"x\":true\x7d" }
    "M0" { code := 200, body := some "\x7b\x7d" }
    { requestId := "V1"
      response := some { code := 200, body := some "\x7b\"plan\":\"pro\"\x7d" } }
    { code := 200, body := some "\x7b\"plan\":\"pro\"\x7d" }
    "\x7b\"plan\":\"pro\"\x7d" [("plan", JSONValue.str "pro")]
    rfl rfl rfl rfl rfl rfl (fun _ _ => rfl) rfl rfl rfl rfl rfl (by decide)
